import Mathlib

/-!
# A shallow embedding of `cargo-udeps` (`src/lib.rs`)

This file embeds the core of the `cargo-udeps` crate in Lean 4 and proves the
specification claims about it.  The embedding follows `src/lib.rs` closely:

* `cmd_info` / `parseArgs` embed the compiler-argument parser `fn cmd_info`
  (lib.rs 451–526); Rust panics inside it are modelled as `Except.error`,
  since both an `Err` and a panic fatally abort the run (`Exec::exec`
  lib.rs 361–363 panics on an `Err` from `cmd_info`).
* `CmdInfo.get_save_analysis_path` / `CmdInfo.get_save_analysis` embed
  lib.rs 418–448; the filesystem and the `serde_json` parse are an oracle
  `Fs` mapping a path to `none` (file missing), `some none` (present but
  malformed) or `some (some a)` (parses to `a`).
* `DependencyNames.new` embeds lib.rs 536–636.  Hash maps are association
  lists with last-insert-wins lookup; `HashMap<_, HashSet<_>>` is an
  association list of lists (`mmInsert`).
* `processCmdInfo`, `computeUnused` and `OptUdeps.run` embed the correlation
  and reporting loop of `OptUdeps::run` (lib.rs 217–311); `BTreeMap` /
  `BTreeSet` insertion is embedded by sorted-list insertion.
* `run` embeds the top level `pub fn run` (lib.rs 27–36); the
  `Err(err) => Err(unimplemented!())` arm is modelled as a distinct
  `CliOutcome.panicked` outcome.
-/

deriving instance DecidableEq for Except

namespace Udeps

/-- Model of `cargo::core::PackageId` (name + version + origin): an opaque
identity with a total order (used as a `BTreeMap` key).  We represent it by
its display string. -/
abbrev PackageId := String

/-- Model of `cargo::core::InternedString` (dependency names). -/
abbrev InternedString := String

/-! ## `CmdInfo` and `fn cmd_info` (lib.rs 405–526) -/

/-- `struct CmdInfo` (lib.rs 405–415). -/
structure CmdInfo where
  pkg : PackageId
  custom_build : Bool
  crate_name : String
  crate_type : String
  extra_filename : String
  cap_lints_allow : Bool
  out_dir : String
  externs : List (String × String)
deriving Repr, DecidableEq

/-- The mutable locals of the `while let` loop in `fn cmd_info`
(lib.rs 452–458), before the `ok_or` checks. -/
structure ArgsState where
  crate_name : Option String := none
  crate_type : Option String := none
  extra_filename : Option String := none
  cap_lints_allow : Bool := false
  out_dir : Option String := none
  externs : List (String × String) := []
deriving Repr, DecidableEq

/-- Rust `str::split` on a one-character separator, over the character
list: `"a=b=c"` becomes `["a", "b", "c"]`, `"abc"` becomes `["abc"]`,
`""` becomes `[""]`. -/
def splitCharList (c : Char) : List Char → List (List Char)
  | [] => [[]]
  | x :: xs =>
    let r := splitCharList c xs
    if x = c then [] :: r
    else
      match r with
      | [] => [[x]]
      | s :: rest => (x :: s) :: rest

/-- Rust `a.split("=")` followed by taking the first two items
(lib.rs 464–469, 501–507): `some (n, p)` when the string contains `=`. -/
def splitEq (a : String) : Option (String × String) :=
  match splitCharList '=' a.data with
  | n :: p :: _ => some (⟨n⟩, ⟨p⟩)
  | _ => none

/-- The argument loop of `fn cmd_info` (lib.rs 459–509).  Each flag consumes
the following argument via `args_iter.next()`; a flag in final position
consumes nothing and the loop ends.  The `panic!("invalid format for extern
arg")` (lib.rs 468) is modelled as an error (a panic aborts the run). -/
def parseArgs : List String → ArgsState → Except String ArgsState
  | [], st => .ok st
  | [_], st => .ok st
  | v :: a :: rest, st =>
    if v = "--extern" then
      match splitEq a with
      | some e => parseArgs rest { st with externs := st.externs ++ [e] }
      | none => .error ("invalid format for extern arg: " ++ a)
    else if v = "--crate-name" then
      parseArgs rest { st with crate_name := some a }
    else if v = "--crate-type" then
      parseArgs rest { st with crate_type := some a }
    else if v = "--cap-lints" then
      parseArgs rest (if a = "allow" then { st with cap_lints_allow := true } else st)
    else if v = "--out-dir" then
      parseArgs rest { st with out_dir := some a }
    else if v = "-C" then
      parseArgs rest
        (match splitEq a with
          | some (n, p) =>
            if n = "extra-filename" then { st with extra_filename := some p } else st
          | none => st)
    else
      parseArgs (a :: rest) st

/-- Rust `Option::ok_or` on the parsed fields (lib.rs 511–514). -/
def okOr (o : Option α) (e : String) : Except String α :=
  match o with
  | some a => .ok a
  | none => .error e

/-- `fn cmd_info` (lib.rs 451–526): parse the compiler invocation into a
`CmdInfo`.  `crate_name`, `extra_filename` and `out_dir` are required;
`crate_type` defaults to `"bin"` (lib.rs 511–514). -/
def cmd_info (id : PackageId) (custom_build : Bool) (args : List String) :
    Except String CmdInfo := do
  let st ← parseArgs args {}
  let crate_name ← okOr st.crate_name "crate name needed"
  let crate_type := st.crate_type.getD "bin"
  let extra_filename ← okOr st.extra_filename "extra-filename needed"
  let out_dir ← okOr st.out_dir "outdir needed"
  .ok { pkg := id, custom_build, crate_name, crate_type, extra_filename,
        cap_lints_allow := st.cap_lints_allow, out_dir, externs := st.externs }

/-! ## Save-analysis artifact (lib.rs 417–448 and the absent `mod defs`) -/

/-- Modelled from the spec: `mod defs` (file `src/defs.rs`) is absent from
`src/`; per §3, the usage-analysis artifact is "per compiled unit, the set of
external library identities the unit's own source references".  The field
shape (`analysis.prelude.external_crates`, `ext.id.name`) is the one
`OptUdeps::run` reads at lib.rs 246–247. -/
structure GlobalCrateId where
  name : String
deriving Repr, DecidableEq

/-- Modelled from the spec: one entry of `prelude.external_crates`
(see `GlobalCrateId`). -/
structure ExternalCrateData where
  id : GlobalCrateId
deriving Repr, DecidableEq

/-- Modelled from the spec: the prelude of the save-analysis document
(see `GlobalCrateId`). -/
structure CratePrelude where
  external_crates : List ExternalCrateData
deriving Repr, DecidableEq

/-- Modelled from the spec: `crate::defs::CrateSaveAnalysis`
(see `GlobalCrateId`). -/
structure CrateSaveAnalysis where
  prelude : CratePrelude
deriving Repr, DecidableEq

/-- Filesystem-plus-deserializer oracle for `std::fs::read_to_string` and
`serde_json::from_str` (lib.rs 445–446): for a path, `none` means the file is
missing (read fails), `some none` means it exists but is malformed (parse
fails), `some (some a)` means it parses to `a`. -/
def Fs := String → Option (Option CrateSaveAnalysis)

/-- `Path::join` with a relative component (lib.rs 427–429). -/
def pathJoin (base component : String) : String := base ++ "/" ++ component

/-- Rust `str::ends_with` (lib.rs 419): suffix test on the characters. -/
def ends_with (s suffix : String) : Bool := suffix.data.isSuffixOf s.data

/-- `CmdInfo::get_save_analysis_path` (lib.rs 418–430). -/
def CmdInfo.get_save_analysis_path (self : CmdInfo) : String :=
  let maybe_lib :=
    if ends_with self.crate_type "lib" || self.crate_type = "proc-macro" then "lib" else ""
  let filename := maybe_lib ++ self.crate_name ++ self.extra_filename ++ ".json"
  pathJoin (pathJoin self.out_dir "save-analysis") filename

/-- `CmdInfo::get_save_analysis` (lib.rs 431–448): read and parse the file at
`get_save_analysis_path`; a missing or malformed file is an error (the `?` on
`read_to_string` and `serde_json::from_str`). -/
def CmdInfo.get_save_analysis (self : CmdInfo) (fs : Fs) :
    Except String CrateSaveAnalysis :=
  match fs self.get_save_analysis_path with
  | none => .error ("No such file or directory: " ++ self.get_save_analysis_path)
  | some none => .error ("malformed save-analysis JSON: " ++ self.get_save_analysis_path)
  | some (some res) => .ok res

/-! ## `DependencyNames` (lib.rs 528–636) -/

/-- The projection of `cargo::core::Dependency` that `DependencyNames::new`
reads: `dep.name_in_toml()` and `dep.is_build()` (lib.rs 579, 591, 597). -/
structure Dependency where
  name_in_toml : InternedString
  is_build : Bool
deriving Repr, DecidableEq

/-- One `(to_pkg, deps)` item of `resolve.deps(from)` (lib.rs 566), together
with the data the loop body obtains from the external resolver for it:
`to_lib_name` is the name of the target package's `lib` target
(`none` when the package is absent from `packages` or has no `lib` target —
both panic, lib.rs 567–573), and `extern_crate_name` is
`resolve.extern_crate_name(from, to_pkg, to_lib)` (lib.rs 575), the possibly
renamed link-name. -/
structure EdgeGroup where
  to_pkg : PackageId
  to_lib_name : Option String
  extern_crate_name : String
  deps : List Dependency
deriving Repr, DecidableEq

/-- The projection of the `from` package and the resolver that
`DependencyNames::new` reads: its id, its `name()`, the
`extern_crate_name(from, from, lib)` of its own `lib` target when it has one
(lib.rs 555–556), and `resolve.deps(from)`. -/
structure FromPackage where
  package_id : PackageId
  name : InternedString
  self_lib_extern_crate_name : Option String
  resolve_deps : List EdgeGroup
deriving Repr, DecidableEq

/-- `HashMap::get` / `BTreeMap` lookup on an association list: the first
binding of the key wins. -/
def alookup {α : Type} (k : String) : List (String × α) → Option α
  | [] => none
  | (k', v) :: rest => if k = k' then some v else alookup k rest

/-- `HashMap::insert` modelled on an association list: lookup sees the most
recent insert (`alookup` returns the first match). -/
def mapInsert (k : String) (v : InternedString) (m : List (String × InternedString)) :
    List (String × InternedString) :=
  (k, v) :: m

/-- `HashMap<String, HashSet<InternedString>>`: `entry(k).or_insert_with(HashSet::new).insert(v)`
(lib.rs 558–561, 594–597). -/
def mmInsert (k : String) (v : InternedString) :
    List (String × List InternedString) → List (String × List InternedString)
  | [] => [(k, [v])]
  | (k', s) :: rest =>
    if k = k' then (k', if v ∈ s then s else v :: s) :: rest
    else (k', s) :: mmInsert k v rest

/-- The value set of a multi-map key (empty when absent). -/
def mmLookup (k : String) (m : List (String × List InternedString)) : List InternedString :=
  (alookup k m).getD []

/-- `struct DependencyNames` (lib.rs 528–534). -/
structure DependencyNames where
  normal_dev_by_extern_crate_name : List (String × InternedString) := []
  normal_dev_by_lib_true_snakecased_name : List (String × List InternedString) := []
  build_by_extern_crate_name : List (String × InternedString) := []
  build_by_lib_true_snakecased_name : List (String × List InternedString) := []
deriving Repr, DecidableEq

/-- `to_lib.name().replace('-', "_")` (lib.rs 576): character-wise
replacement. -/
def snakecase (s : String) : String :=
  ⟨s.data.map (fun c => if c = '-' then '_' else c)⟩

/-- The per-dependency body of the edge loop (lib.rs 578–598): select the
build or normal/dev maps by `dep.is_build()`, insert
`extern_crate_name → name_in_toml` and add `name_in_toml` to the
`lib_true_snakecased_name` entry. -/
def addDep (extern_crate_name lib_true_snakecased_name : String) (dep : Dependency)
    (this : DependencyNames) : DependencyNames :=
  if dep.is_build then
    { this with
      build_by_extern_crate_name :=
        mapInsert extern_crate_name dep.name_in_toml this.build_by_extern_crate_name,
      build_by_lib_true_snakecased_name :=
        mmInsert lib_true_snakecased_name dep.name_in_toml this.build_by_lib_true_snakecased_name }
  else
    { this with
      normal_dev_by_extern_crate_name :=
        mapInsert extern_crate_name dep.name_in_toml this.normal_dev_by_extern_crate_name,
      normal_dev_by_lib_true_snakecased_name :=
        mmInsert lib_true_snakecased_name dep.name_in_toml this.normal_dev_by_lib_true_snakecased_name }

/-- One `(to_pkg, deps)` iteration of the loop at lib.rs 566–599.  A target
without a `lib` target panics (lib.rs 567–573); the panic is modelled as an
error. -/
def processEdgeGroup (this : DependencyNames) (g : EdgeGroup) :
    Except String DependencyNames :=
  match g.to_lib_name with
  | none => .error (g.to_pkg ++ " does not have any `lib` target")
  | some libName =>
    let lib_true_snakecased_name := snakecase libName
    .ok (g.deps.foldl
      (fun acc dep => addDep g.extern_crate_name lib_true_snakecased_name dep acc) this)

/-- `BTreeMap::insert` on a sorted association list, used by the
`ambiguous_names` `collect::<BTreeMap<_, _>>()` (lib.rs 543–551): keys kept
strictly sorted, a later insert of an existing key overwrites. -/
def btreeInsert (k : InternedString) (v : String) :
    List (InternedString × String) → List (InternedString × String)
  | [] => [(k, v)]
  | (k', v') :: rest =>
    if k < k' then (k, v) :: (k', v') :: rest
    else if k = k' then (k, v) :: rest
    else (k', v') :: btreeInsert k v rest

/-- `fn ambiguous_names` (lib.rs 543–551): the `(manifest name, library key)`
pairs of every multi-map key with more than one manifest name, collected into
a `BTreeMap` keyed by manifest name. -/
def ambiguous_names (names : List (String × List InternedString)) :
    List (InternedString × String) :=
  let pairs := ((names.filter (fun kv => kv.2.length > 1)).map
    (fun kv => kv.2.map (fun v => (v, kv.1)))).flatten
  pairs.foldl (fun acc p => btreeInsert p.1 p.2 acc) []

/-- The result of `DependencyNames::new` together with its diagnostic output:
the two ambiguity reports and whether `shell.warn` was called
(lib.rs 601–633). -/
structure DependencyNamesResult where
  names : DependencyNames
  ambiguous_normal_dev : List (InternedString × String)
  ambiguous_build : List (InternedString × String)
  warned : Bool
deriving Repr, DecidableEq

/-- Lib.rs 553–562: the `Self::default()` start value and the
self-registration of the package's own `lib` target, which is inserted into
the *normal/dev* maps keyed by its extern crate name. -/
def selfInsert (from_ : FromPackage) : DependencyNames :=
  let this : DependencyNames := {}
  match from_.self_lib_extern_crate_name with
  | some name =>
    { this with
      normal_dev_by_extern_crate_name :=
        mapInsert name from_.name this.normal_dev_by_extern_crate_name,
      normal_dev_by_lib_true_snakecased_name :=
        mmInsert name from_.name this.normal_dev_by_lib_true_snakecased_name }
  | none => this

/-- `DependencyNames::new` (lib.rs 537–636): the self-registration, then every
resolved edge is processed, and finally ambiguous library names are collected
and warned about (non-fatally). -/
def DependencyNames.new (from_ : FromPackage) : Except String DependencyNamesResult := do
  let this := selfInsert from_
  let this ← from_.resolve_deps.foldlM processEdgeGroup this
  let ambiguous_normal_dev := ambiguous_names this.normal_dev_by_lib_true_snakecased_name
  let ambiguous_build := ambiguous_names this.build_by_lib_true_snakecased_name
  .ok { names := this
      , ambiguous_normal_dev
      , ambiguous_build
      , warned := !(ambiguous_normal_dev.isEmpty && ambiguous_build.isEmpty) }

/-! ## The correlation loop of `OptUdeps::run` (lib.rs 217–260) -/

/-- The four `HashSet`s of lib.rs 217–220 (`normal_dev_dependencies` and
`build_dependencies` are the *declared* sets). -/
structure DependencySets where
  used_normal_dev_dependencies : List (PackageId × InternedString) := []
  used_build_dependencies : List (PackageId × InternedString) := []
  normal_dev_dependencies : List (PackageId × InternedString) := []
  build_dependencies : List (PackageId × InternedString) := []
deriving Repr, DecidableEq

/-- `HashSet::insert` on a duplicate-free list model. -/
def hsInsert (x : PackageId × InternedString) (s : List (PackageId × InternedString)) :
    List (PackageId × InternedString) :=
  if x ∈ s then s else x :: s

/-- The body of the usage loop (lib.rs 247–251) for one external crate of
the analysis: look its name up in `by_lib_true_snakecased_name` and insert
every manifest name it maps to into the used set. -/
def usageStep (by_lib_true_snakecased_name : List (String × List InternedString))
    (pkg : PackageId) (used : List (PackageId × InternedString))
    (extCrate : ExternalCrateData) : List (PackageId × InternedString) :=
  match alookup extCrate.id.name by_lib_true_snakecased_name with
  | some dependency_names =>
    dependency_names.foldl (fun used dependency_name =>
      hsInsert (pkg, dependency_name) used) used
  | none => used

/-- The usage loop (lib.rs 246–252): every external crate of the analysis is
looked up in `by_lib_true_snakecased_name`; every manifest name it maps to is
inserted into the used set. -/
def recordUsage (by_lib_true_snakecased_name : List (String × List InternedString))
    (pkg : PackageId) (analysis : CrateSaveAnalysis)
    (used : List (PackageId × InternedString)) : List (PackageId × InternedString) :=
  analysis.prelude.external_crates.foldl (usageStep by_lib_true_snakecased_name pkg) used

/-- The declared-links loop (lib.rs 253–258): every `(name, path)` of
`cmd_info.externs` is looked up in `by_extern_crate_name`; a miss is the
`panic!("could not find ...")` (modelled as an error), a hit inserts the
mapped manifest name into the declared set. -/
def recordDeclared (by_extern_crate_name : List (String × InternedString))
    (pkg : PackageId) (externs : List (String × String))
    (dependencies : List (PackageId × InternedString)) :
    Except String (List (PackageId × InternedString)) :=
  externs.foldlM
    (fun dependencies e =>
      match alookup e.1 by_extern_crate_name with
      | some dependency_name => .ok (hsInsert (pkg, dependency_name) dependencies)
      | none => .error ("could not find " ++ e.1))
    dependencies

/-- One iteration of `for cmd_info in data.relevant_cmd_infos` (lib.rs
222–260): load the save analysis (fatal on failure), skip packages without a
name index, otherwise select the build or normal/dev maps by `custom_build`
and run the usage and declared loops. -/
def processCmdInfo (dependency_names : List (PackageId × DependencyNamesResult)) (fs : Fs)
    (sets : DependencySets) (ci : CmdInfo) : Except String DependencySets := do
  let analysis ← ci.get_save_analysis fs
  match alookup ci.pkg dependency_names with
  | none => .ok sets
  | some dn =>
    if ci.custom_build then do
      let used := recordUsage dn.names.build_by_lib_true_snakecased_name ci.pkg analysis
        sets.used_build_dependencies
      let dependencies ← recordDeclared dn.names.build_by_extern_crate_name ci.pkg ci.externs
        sets.build_dependencies
      .ok { sets with used_build_dependencies := used, build_dependencies := dependencies }
    else do
      let used := recordUsage dn.names.normal_dev_by_lib_true_snakecased_name ci.pkg analysis
        sets.used_normal_dev_dependencies
      let dependencies ← recordDeclared dn.names.normal_dev_by_extern_crate_name ci.pkg
        ci.externs sets.normal_dev_dependencies
      .ok { sets with
            used_normal_dev_dependencies := used
            normal_dev_dependencies := dependencies }

/-! ## The unused-set computation of `OptUdeps::run` (lib.rs 262–279) -/

/-- `BTreeSet::insert` on a strictly sorted list. -/
def btreeSetInsert (d : InternedString) : List InternedString → List InternedString
  | [] => [d]
  | x :: xs =>
    if d < x then d :: x :: xs
    else if d = x then x :: xs
    else x :: btreeSetInsert d xs

/-- The fresh `(BTreeSet::new(), BTreeSet::new())` entry of lib.rs 271 right
after the category insert of lib.rs 272–276. -/
def unusedInit (custom_build : Bool) (dep : InternedString) :
    List InternedString × List InternedString :=
  if custom_build then ([], [dep]) else ([dep], [])

/-- The category insert of lib.rs 272–276 on an existing entry. -/
def unusedUpd (custom_build : Bool) (dep : InternedString)
    (v : List InternedString × List InternedString) :
    List InternedString × List InternedString :=
  if custom_build then (v.1, btreeSetInsert dep v.2) else (btreeSetInsert dep v.1, v.2)

/-- `unused_dependencies.entry(id).or_insert_with(..)` followed by an insert
into the category's `BTreeSet` (lib.rs 269–277), on a key-sorted association
list of `(normal/dev set, build set)` pairs. -/
def unusedInsert (id : PackageId) (custom_build : Bool) (dep : InternedString) :
    List (PackageId × (List InternedString × List InternedString)) →
    List (PackageId × (List InternedString × List InternedString))
  | [] => [(id, unusedInit custom_build dep)]
  | (k, v) :: rest =>
    if id < k then
      (id, unusedInit custom_build dep) :: (k, v) :: rest
    else if id = k then
      (k, unusedUpd custom_build dep v) :: rest
    else (k, v) :: unusedInsert id custom_build dep rest

/-- The inner loop of lib.rs 267–278 for one `(dependencies, used, custom_build)`
triple: every declared pair not in the used set is inserted into the map.
(The source iterates a `HashSet` in arbitrary order; the resulting sorted
structure does not depend on that order.) -/
def collectUnused (dependencies used : List (PackageId × InternedString))
    (custom_build : Bool)
    (acc : List (PackageId × (List InternedString × List InternedString))) :
    List (PackageId × (List InternedString × List InternedString)) :=
  dependencies.foldl
    (fun acc iddep =>
      if iddep ∈ used then acc else unusedInsert iddep.1 custom_build iddep.2 acc)
    acc

/-- Lib.rs 262–279: the normal/dev pass then the build pass over the declared
sets. -/
def computeUnused (sets : DependencySets) :
    List (PackageId × (List InternedString × List InternedString)) :=
  collectUnused sets.build_dependencies sets.used_build_dependencies true
    (collectUnused sets.normal_dev_dependencies sets.used_normal_dev_dependencies false [])

/-! ## `OptUdeps::run` and `pub fn run` (lib.rs 27–36, 181–313) -/

/-- The external inputs of one `OptUdeps::run` execution: the workspace
members (from which the name indexes are built, lib.rs 203–210), the
invocation records collected by the interceptor during the build
(lib.rs 212–215, 222), and the filesystem oracle. -/
structure RunInput where
  members : List FromPackage
  relevant_cmd_infos : List CmdInfo
  fs : Fs

/-- Lib.rs 203–210: build a `DependencyNames` index per workspace member,
propagating the first error (`collect::<CargoResult<HashMap<_, _>>>()?`). -/
def buildDependencyNames (members : List FromPackage) :
    Except String (List (PackageId × DependencyNamesResult)) :=
  members.foldlM
    (fun acc from_ => do
      let val ← DependencyNames.new from_
      .ok ((from_.package_id, val) :: acc))
    []

/-- Lib.rs 203–260: index building followed by the correlation loop. -/
def correlate (inp : RunInput) : Except String DependencySets := do
  let dependency_names ← buildDependencyNames inp.members
  inp.relevant_cmd_infos.foldlM (processCmdInfo dependency_names inp.fs) {}

/-- `OptUdeps::run` (lib.rs 182–312), projected to its exit code and the
first line it prints (lib.rs 280–311): `(1, "unused dependencies:")` when
some unused set is nonempty, `(0, "All deps seem to have been used.")`
otherwise. -/
def OptUdeps.run (inp : RunInput) : Except String (Nat × String) := do
  let sets ← correlate inp
  let unused_dependencies := computeUnused sets
  if unused_dependencies.all (fun e => e.2.1.isEmpty && e.2.2.isEmpty) then
    .ok (0, "All deps seem to have been used.")
  else
    .ok (1, "unused dependencies:")

/-- The observable completion of `pub fn run` (lib.rs 27–36): normal exit,
exit with a `CliError::code`, or a panic (the `Err(err) =>
Err(unimplemented!())` arm panics before constructing an error). -/
inductive CliOutcome
  | ok
  | errCode (code : Nat)
  | panicked
deriving Repr, DecidableEq

/-- `pub fn run` (lib.rs 27–36): `Ok(0)` becomes success, `Ok(code)` becomes
`CliError::code(code)`, and the `Err` arm evaluates `unimplemented!()`, i.e.
panics. -/
def run (inp : RunInput) : CliOutcome :=
  match OptUdeps.run inp with
  | .ok (0, _) => .ok
  | .ok (code, _) => .errCode code
  | .error _ => .panicked

/-! ## `Exec` (lib.rs 352–403) -/

/-- `cargo::core::SourceId`, projected to `is_path()`. -/
structure SourceId where
  is_path : Bool
deriving Repr, DecidableEq

/-- `cargo::core::compiler::Unit`, projected to
`unit.pkg.summary().source_id()` (lib.rs 400). -/
structure CargoUnit where
  source_id : SourceId
deriving Repr, DecidableEq

/-- The `RUST_SAVE_ANALYSIS_CONFIG` value set at lib.rs 392–393: minimal
detail, reachable external references only. -/
def save_analysis_config : String :=
  "\x7b \"reachable_only\": true, \"full_docs\": false, \"pub_only\": false, \"distro_crate\": false, \"signatures\": false, \"borrow_data\": false \x7d"

/-- The observable effects of one `Exec::exec` call (lib.rs 357–398):
whether the record was pushed onto `relevant_cmd_infos`, whether the
`cap_lints_allow`/`is_path` mismatch warning was printed, the value given to
`RUST_SAVE_ANALYSIS_CONFIG` (if any), and the final compiler argument list. -/
structure ExecEffects where
  recorded : Bool
  warned : Bool
  rust_save_analysis_config : Option String
  final_args : List String
deriving Repr, DecidableEq

/-- `Exec::exec` (lib.rs 357–398).  `cmd_info` failure panics (lib.rs
361–363), modelled as an error.  For `is_path` units the record is pushed,
the save-analysis config environment variable is set and
`-Z save-analysis` is appended; for others none of that happens. -/
def Exec.exec (id : PackageId) (custom_build : Bool) (is_path : Bool)
    (args : List String) : Except String ExecEffects := do
  let ci ← cmd_info id custom_build args
  .ok { recorded := is_path
      , warned := ((!ci.cap_lints_allow) != is_path)
      , rust_save_analysis_config := if is_path then some save_analysis_config else none
      , final_args := if is_path then args ++ ["-Z", "save-analysis"] else args }

/-- `Exec::force_rebuild` (lib.rs 399–402): rebuild exactly the units whose
package comes from a path source. -/
def Exec.force_rebuild (unit : CargoUnit) : Bool :=
  unit.source_id.is_path

/-! ## Helper lemmas: `Except`, set insertion, correlation loops -/

theorem ok_bind {α β : Type} (a : α) (f : α → Except String β) :
    (Except.ok a >>= f) = f a := rfl

theorem error_bind {α β : Type} (e : String) (f : α → Except String β) :
    ((Except.error e : Except String α) >>= f) = .error e := rfl

theorem mem_hsInsert {y x : PackageId × InternedString}
    {s : List (PackageId × InternedString)} :
    y ∈ hsInsert x s ↔ y = x ∨ y ∈ s := by
  unfold hsInsert
  split
  · exact ⟨fun h => Or.inr h, fun h => h.elim (fun h' => h' ▸ ‹x ∈ s›) id⟩
  · exact List.mem_cons

theorem mem_hsInsert_self {x : PackageId × InternedString}
    {s : List (PackageId × InternedString)} : x ∈ hsInsert x s :=
  mem_hsInsert.mpr (Or.inl rfl)

theorem mem_hsInsert_of_mem {y x : PackageId × InternedString}
    {s : List (PackageId × InternedString)} (h : y ∈ s) : y ∈ hsInsert x s :=
  mem_hsInsert.mpr (Or.inr h)

theorem mem_foldl_hsInsert_of_mem {x : PackageId × InternedString} {pkg : PackageId}
    {S : List InternedString} {used : List (PackageId × InternedString)}
    (h : x ∈ used) :
    x ∈ S.foldl (fun used dependency_name => hsInsert (pkg, dependency_name) used) used := by
  induction S generalizing used with
  | nil => exact h
  | cons d S ih => exact ih (mem_hsInsert_of_mem h)

theorem mem_foldl_hsInsert_self {pkg : PackageId} {n : InternedString}
    {S : List InternedString} {used : List (PackageId × InternedString)}
    (h : n ∈ S) :
    (pkg, n) ∈ S.foldl (fun used dependency_name => hsInsert (pkg, dependency_name) used) used := by
  induction S generalizing used with
  | nil => cases h
  | cons d S ih =>
    rw [List.foldl_cons]
    rcases List.mem_cons.mp h with rfl | h
    · exact mem_foldl_hsInsert_of_mem mem_hsInsert_self
    · exact ih h

theorem mem_usageStep_of_mem {bl : List (String × List InternedString)} {pkg : PackageId}
    {x : PackageId × InternedString} {used : List (PackageId × InternedString)}
    {extCrate : ExternalCrateData} (h : x ∈ used) :
    x ∈ usageStep bl pkg used extCrate := by
  unfold usageStep
  split
  · exact mem_foldl_hsInsert_of_mem h
  · exact h

theorem foldl_usageStep_mono {bl : List (String × List InternedString)} {pkg : PackageId}
    {x : PackageId × InternedString} {used : List (PackageId × InternedString)}
    {exts : List ExternalCrateData} (h : x ∈ used) :
    x ∈ exts.foldl (usageStep bl pkg) used := by
  induction exts generalizing used with
  | nil => exact h
  | cons e exts ih => exact ih (mem_usageStep_of_mem h)

theorem recordUsage_mono {bl : List (String × List InternedString)} {pkg : PackageId}
    {a : CrateSaveAnalysis} {x : PackageId × InternedString}
    {used : List (PackageId × InternedString)} (h : x ∈ used) :
    x ∈ recordUsage bl pkg a used :=
  foldl_usageStep_mono h

theorem recordUsage_hit {bl : List (String × List InternedString)} {pkg : PackageId}
    {a : CrateSaveAnalysis} {extCrate : ExternalCrateData} {S : List InternedString}
    {n : InternedString} {used : List (PackageId × InternedString)}
    (hmem : extCrate ∈ a.prelude.external_crates)
    (hlook : alookup extCrate.id.name bl = some S) (hn : n ∈ S) :
    (pkg, n) ∈ recordUsage bl pkg a used := by
  unfold recordUsage
  revert hmem
  generalize a.prelude.external_crates = exts
  intro hmem
  induction exts generalizing used with
  | nil => cases hmem
  | cons e exts ih =>
    rw [List.foldl_cons]
    rcases List.mem_cons.mp hmem with rfl | hmem
    · apply foldl_usageStep_mono
      unfold usageStep
      rw [hlook]
      exact mem_foldl_hsInsert_self hn
    · exact ih hmem

theorem foldlM_congr_error {α β : Type} {f : β → α → Except String β} {l : List α} {c : α}
    (hc : c ∈ l) (herr : ∀ b, ∃ e, f b c = .error e) (b : β) :
    ∃ e, l.foldlM f b = .error e := by
  induction l generalizing b with
  | nil => cases hc
  | cons a t ih =>
    rw [List.foldlM_cons]
    cases hfa : f b a with
    | error e => exact ⟨e, rfl⟩
    | ok b' =>
      rcases List.mem_cons.mp hc with rfl | hc
      · rcases herr b with ⟨e, he⟩
        rw [he] at hfa
        cases hfa
      · exact ih hc b'

theorem recordDeclared_ok {m : List (String × InternedString)} {pkg : PackageId}
    {externs : List (String × String)} {deps₀ : List (PackageId × InternedString)}
    (h : ∀ e ∈ externs, (alookup e.1 m).isSome) :
    ∃ deps, recordDeclared m pkg externs deps₀ = .ok deps ∧
      (∀ x ∈ deps₀, x ∈ deps) ∧
      (∀ e ∈ externs, ∀ v, alookup e.1 m = some v → (pkg, v) ∈ deps) := by
  induction externs generalizing deps₀ with
  | nil => exact ⟨deps₀, rfl, fun x hx => hx, fun e he => absurd he (List.not_mem_nil e)⟩
  | cons a t ih =>
    have ha := h a (List.mem_cons_self a t)
    cases hl : alookup a.1 m with
    | none => rw [hl] at ha; cases ha
    | some v =>
      have step : recordDeclared m pkg (a :: t) deps₀ =
          recordDeclared m pkg t (hsInsert (pkg, v) deps₀) := by
        unfold recordDeclared
        rw [List.foldlM_cons, hl, ok_bind]
      rcases @ih (hsInsert (pkg, v) deps₀) (fun e he => h e (List.mem_cons_of_mem a he))
        with ⟨deps, hok, hmono, hhit⟩
      refine ⟨deps, step ▸ hok, fun x hx => hmono x (mem_hsInsert_of_mem hx), ?_⟩
      intro e he w hw
      rcases List.mem_cons.mp he with rfl | he
      · rw [hl] at hw
        cases hw
        exact hmono _ mem_hsInsert_self
      · exact hhit e he w hw

theorem recordDeclared_error {m : List (String × InternedString)} {pkg : PackageId}
    {externs : List (String × String)} {deps₀ : List (PackageId × InternedString)}
    {c : String × String} (hc : c ∈ externs) (hl : alookup c.1 m = none) :
    ∃ err, recordDeclared m pkg externs deps₀ = .error err := by
  unfold recordDeclared
  refine foldlM_congr_error hc (fun b => ⟨"could not find " ++ c.1, ?_⟩) deps₀
  rw [hl]

/-! ## Helper lemmas: sorted structures (`BTreeSet` / `BTreeMap` model) -/

theorem alookup_cons {α : Type} {k k' : String} {v : α} {rest : List (String × α)} :
    alookup k ((k', v) :: rest) = if k = k' then some v else alookup k rest := rfl

theorem mem_keys_of_alookup {α : Type} {p : String} {m : List (String × α)} {v : α}
    (h : alookup p m = some v) : p ∈ m.map Prod.fst := by
  induction m with
  | nil => cases h
  | cons kv m ih =>
    obtain ⟨k, w⟩ := kv
    rw [alookup_cons] at h
    by_cases hp : p = k
    · exact List.mem_cons.mpr (Or.inl hp)
    · rw [if_neg hp] at h
      exact List.mem_cons.mpr (Or.inr (ih h))

theorem mem_btreeSetInsert {x d : InternedString} {l : List InternedString} :
    x ∈ btreeSetInsert d l ↔ x = d ∨ x ∈ l := by
  induction l with
  | nil => simp [btreeSetInsert]
  | cons a l ih =>
    unfold btreeSetInsert
    rcases lt_trichotomy d a with h1 | h1 | h1
    · rw [if_pos h1]
      simp only [List.mem_cons]
    · subst h1
      rw [if_neg (lt_irrefl d), if_pos rfl]
      simp only [List.mem_cons]
      tauto
    · rw [if_neg (lt_asymm h1), if_neg (ne_of_gt h1)]
      simp only [List.mem_cons, ih]
      tauto

theorem pairwise_btreeSetInsert {d : InternedString} {l : List InternedString}
    (h : l.Pairwise (· < ·)) : (btreeSetInsert d l).Pairwise (· < ·) := by
  induction l with
  | nil => simp [btreeSetInsert]
  | cons a l ih =>
    rw [List.pairwise_cons] at h
    obtain ⟨ha, hl⟩ := h
    unfold btreeSetInsert
    by_cases h1 : d < a
    · rw [if_pos h1, List.pairwise_cons]
      refine ⟨?_, List.pairwise_cons.mpr ⟨ha, hl⟩⟩
      intro b hb
      rcases List.mem_cons.mp hb with rfl | hb
      · exact h1
      · exact lt_trans h1 (ha b hb)
    · by_cases h2 : d = a
      · subst h2
        rw [if_neg h1, if_pos rfl]
        exact List.pairwise_cons.mpr ⟨ha, hl⟩
      · rw [if_neg h1, if_neg h2, List.pairwise_cons]
        refine ⟨?_, ih hl⟩
        intro b hb
        rcases mem_btreeSetInsert.mp hb with rfl | hb
        · exact lt_of_le_of_ne (not_lt.mp h1) (Ne.symm h2)
        · exact ha b hb

theorem alookup_unusedInsert_ne {p id : PackageId} {cb : Bool} {dep : InternedString}
    {m : List (PackageId × (List InternedString × List InternedString))} (hne : p ≠ id) :
    alookup p (unusedInsert id cb dep m) = alookup p m := by
  induction m with
  | nil => simp [unusedInsert, alookup, hne]
  | cons kv m ih =>
    obtain ⟨k, v⟩ := kv
    unfold unusedInsert
    by_cases h1 : id < k
    · rw [if_pos h1, alookup_cons, if_neg hne]
    · by_cases h2 : id = k
      · subst h2
        rw [if_neg h1, if_pos rfl, alookup_cons, alookup_cons, if_neg hne, if_neg hne]
      · rw [if_neg h1, if_neg h2, alookup_cons, alookup_cons, ih]

theorem alookup_unusedInsert_self_none {id : PackageId} {cb : Bool} {dep : InternedString}
    {m : List (PackageId × (List InternedString × List InternedString))}
    (hl : alookup id m = none) :
    alookup id (unusedInsert id cb dep m) = some (unusedInit cb dep) := by
  induction m with
  | nil => simp [unusedInsert, alookup]
  | cons kv m ih =>
    obtain ⟨k, v⟩ := kv
    rw [alookup_cons] at hl
    by_cases h2 : id = k
    · rw [if_pos h2] at hl
      cases hl
    · rw [if_neg h2] at hl
      unfold unusedInsert
      by_cases h1 : id < k
      · rw [if_pos h1, alookup_cons, if_pos rfl]
      · rw [if_neg h1, if_neg h2, alookup_cons, if_neg h2]
        exact ih hl

theorem alookup_unusedInsert_self_some {id : PackageId} {cb : Bool} {dep : InternedString}
    {m : List (PackageId × (List InternedString × List InternedString))}
    {v : List InternedString × List InternedString}
    (hm : (m.map Prod.fst).Pairwise (· < ·)) (hl : alookup id m = some v) :
    alookup id (unusedInsert id cb dep m) = some (unusedUpd cb dep v) := by
  induction m with
  | nil => cases hl
  | cons kv m ih =>
    obtain ⟨k, w⟩ := kv
    rw [List.map_cons, List.pairwise_cons] at hm
    obtain ⟨hk, hm'⟩ := hm
    rw [alookup_cons] at hl
    unfold unusedInsert
    by_cases h2 : id = k
    · subst h2
      rw [if_pos rfl] at hl
      cases hl
      rw [if_neg (lt_irrefl id), if_pos rfl, alookup_cons, if_pos rfl]
    · rw [if_neg h2] at hl
      by_cases h1 : id < k
      · exact absurd (hk id (mem_keys_of_alookup hl)) (lt_asymm h1)
      · rw [if_neg h1, if_neg h2, alookup_cons, if_neg h2]
        exact ih hm' hl

theorem mem_keys_unusedInsert {k' id : PackageId} {cb : Bool} {dep : InternedString}
    {m : List (PackageId × (List InternedString × List InternedString))} :
    k' ∈ (unusedInsert id cb dep m).map Prod.fst ↔ k' = id ∨ k' ∈ m.map Prod.fst := by
  induction m with
  | nil => simp [unusedInsert]
  | cons kv m ih =>
    obtain ⟨k, v⟩ := kv
    unfold unusedInsert
    by_cases h1 : id < k
    · rw [if_pos h1]
      simp only [List.map_cons, List.mem_cons]
    · by_cases h2 : id = k
      · subst h2
        rw [if_neg h1, if_pos rfl]
        simp only [List.map_cons, List.mem_cons]
        tauto
      · rw [if_neg h1, if_neg h2]
        simp only [List.map_cons, List.mem_cons]
        rw [ih]
        tauto

theorem keysSorted_unusedInsert {id : PackageId} {cb : Bool} {dep : InternedString}
    {m : List (PackageId × (List InternedString × List InternedString))}
    (hm : (m.map Prod.fst).Pairwise (· < ·)) :
    ((unusedInsert id cb dep m).map Prod.fst).Pairwise (· < ·) := by
  induction m with
  | nil => simp [unusedInsert]
  | cons kv m ih =>
    obtain ⟨k, v⟩ := kv
    rw [List.map_cons, List.pairwise_cons] at hm
    obtain ⟨hk, hm'⟩ := hm
    unfold unusedInsert
    by_cases h1 : id < k
    · rw [if_pos h1]
      simp only [List.map_cons, List.pairwise_cons]
      refine ⟨?_, hk, hm'⟩
      intro b hb
      rcases List.mem_cons.mp hb with rfl | hb
      · exact h1
      · exact lt_trans h1 (hk b hb)
    · by_cases h2 : id = k
      · subst h2
        rw [if_neg h1, if_pos rfl]
        simp only [List.map_cons, List.pairwise_cons]
        exact ⟨hk, hm'⟩
      · rw [if_neg h1, if_neg h2]
        simp only [List.map_cons, List.pairwise_cons]
        refine ⟨?_, ih hm'⟩
        intro b hb
        rcases mem_keys_unusedInsert.mp hb with rfl | hb
        · exact lt_of_le_of_ne (not_lt.mp h1) (Ne.symm h2)
        · exact hk b hb

/-- Every per-package pair of category sets in the map is strictly sorted. -/
def SlotsSorted (m : List (PackageId × (List InternedString × List InternedString))) : Prop :=
  ∀ e ∈ m, e.2.1.Pairwise (· < ·) ∧ e.2.2.Pairwise (· < ·)

theorem slotsSorted_unusedInsert {id : PackageId} {cb : Bool} {dep : InternedString}
    {m : List (PackageId × (List InternedString × List InternedString))}
    (hm : SlotsSorted m) : SlotsSorted (unusedInsert id cb dep m) := by
  have hinit : (unusedInit cb dep).1.Pairwise (· < ·) ∧
      (unusedInit cb dep).2.Pairwise (· < ·) := by
    cases cb <;> simp [unusedInit]
  induction m with
  | nil =>
    intro e he
    simp only [unusedInsert, List.mem_singleton] at he
    subst he
    exact hinit
  | cons kv m ih =>
    obtain ⟨k, v⟩ := kv
    have hv := hm (k, v) (List.mem_cons_self _ _)
    have hm' : SlotsSorted m := fun e he => hm e (List.mem_cons_of_mem _ he)
    unfold unusedInsert
    by_cases h1 : id < k
    · rw [if_pos h1]
      intro e he
      rcases List.mem_cons.mp he with rfl | he
      · exact hinit
      · exact hm e he
    · by_cases h2 : id = k
      · subst h2
        rw [if_neg h1, if_pos rfl]
        intro e he
        rcases List.mem_cons.mp he with rfl | he
        · cases cb
          · exact ⟨pairwise_btreeSetInsert hv.1, hv.2⟩
          · exact ⟨hv.1, pairwise_btreeSetInsert hv.2⟩
        · exact hm' e he
      · rw [if_neg h1, if_neg h2]
        intro e he
        rcases List.mem_cons.mp he with rfl | he
        · exact hv
        · exact ih hm' e he

/-- `d` is reported for package `p` in category `custom_build` by the unused
map `m`. -/
def unusedMem (p : PackageId) (d : InternedString) (custom_build : Bool)
    (m : List (PackageId × (List InternedString × List InternedString))) : Prop :=
  ∃ v, alookup p m = some v ∧ d ∈ (if custom_build then v.2 else v.1)

/-- The well-formedness invariant of the unused map: keys strictly sorted,
every category set strictly sorted. -/
def UnusedInv (m : List (PackageId × (List InternedString × List InternedString))) : Prop :=
  (m.map Prod.fst).Pairwise (· < ·) ∧ SlotsSorted m

theorem unusedInv_nil : UnusedInv [] :=
  ⟨List.Pairwise.nil, fun e he => absurd he (List.not_mem_nil e)⟩

theorem unusedInv_unusedInsert {id : PackageId} {cb : Bool} {dep : InternedString}
    {m : List (PackageId × (List InternedString × List InternedString))}
    (h : UnusedInv m) : UnusedInv (unusedInsert id cb dep m) :=
  ⟨keysSorted_unusedInsert h.1, slotsSorted_unusedInsert h.2⟩

theorem unusedMem_nil {p : PackageId} {d : InternedString} {cb : Bool} :
    ¬ unusedMem p d cb [] := by
  rintro ⟨v, hv, -⟩
  cases hv

theorem unusedMem_unusedInsert {p id : PackageId} {d dep : InternedString} {cb cb' : Bool}
    {m : List (PackageId × (List InternedString × List InternedString))}
    (hm : (m.map Prod.fst).Pairwise (· < ·)) :
    unusedMem p d cb (unusedInsert id cb' dep m) ↔
      (p = id ∧ cb = cb' ∧ d = dep) ∨ unusedMem p d cb m := by
  by_cases hp : p = id
  · subst hp
    cases hl : alookup p m with
    | none =>
      unfold unusedMem
      rw [alookup_unusedInsert_self_none hl]
      constructor
      · rintro ⟨v, hv, hd⟩
        rw [Option.some.injEq] at hv
        subst hv
        cases cb <;> cases cb' <;> simp only [unusedInit] at hd <;> simp at hd
        · exact Or.inl ⟨rfl, rfl, hd⟩
        · exact Or.inl ⟨rfl, rfl, hd⟩
      · rintro (⟨-, hcb, hd⟩ | ⟨v, hv, -⟩)
        · subst hcb
          subst hd
          refine ⟨unusedInit cb d, rfl, ?_⟩
          cases cb <;> simp [unusedInit]
        · rw [hl] at hv
          cases hv
    | some w =>
      unfold unusedMem
      rw [alookup_unusedInsert_self_some hm hl, hl]
      constructor
      · rintro ⟨v, hv, hd⟩
        rw [Option.some.injEq] at hv
        subst hv
        cases cb <;> cases cb' <;> simp only [unusedUpd] at hd <;> simp at hd
        · rcases mem_btreeSetInsert.mp hd with rfl | hd
          · exact Or.inl ⟨rfl, rfl, rfl⟩
          · exact Or.inr ⟨w, rfl, hd⟩
        · exact Or.inr ⟨w, rfl, hd⟩
        · exact Or.inr ⟨w, rfl, hd⟩
        · rcases mem_btreeSetInsert.mp hd with rfl | hd
          · exact Or.inl ⟨rfl, rfl, rfl⟩
          · exact Or.inr ⟨w, rfl, hd⟩
      · rintro (⟨-, hcb, hd⟩ | ⟨v, hv, hd⟩)
        · subst hcb
          subst hd
          refine ⟨unusedUpd cb d w, rfl, ?_⟩
          cases cb <;> simp [unusedUpd] <;> exact mem_btreeSetInsert.mpr (Or.inl rfl)
        · rw [Option.some.injEq] at hv
          subst hv
          refine ⟨unusedUpd cb' dep w, rfl, ?_⟩
          cases cb <;> cases cb' <;> simp only [unusedUpd] <;> simp <;> simp at hd
          · exact mem_btreeSetInsert.mpr (Or.inr hd)
          · exact hd
          · exact hd
          · exact mem_btreeSetInsert.mpr (Or.inr hd)
  · unfold unusedMem
    rw [alookup_unusedInsert_ne hp]
    constructor
    · rintro ⟨v, hv, hd⟩
      exact Or.inr ⟨v, hv, hd⟩
    · rintro (⟨hp', -, -⟩ | ⟨v, hv, hd⟩)
      · exact absurd hp' hp
      · exact ⟨v, hv, hd⟩

theorem unusedInv_collectUnused {dependencies used : List (PackageId × InternedString)}
    {cb : Bool} {acc : List (PackageId × (List InternedString × List InternedString))}
    (h : UnusedInv acc) : UnusedInv (collectUnused dependencies used cb acc) := by
  unfold collectUnused
  induction dependencies generalizing acc with
  | nil => exact h
  | cons a t ih =>
    rw [List.foldl_cons]
    by_cases hmem : a ∈ used
    · rw [if_pos hmem]
      exact ih h
    · rw [if_neg hmem]
      exact ih (unusedInv_unusedInsert h)

theorem unusedMem_collectUnused {p : PackageId} {d : InternedString} {cb cb' : Bool}
    {dependencies used : List (PackageId × InternedString)}
    {acc : List (PackageId × (List InternedString × List InternedString))}
    (h : UnusedInv acc) :
    unusedMem p d cb (collectUnused dependencies used cb' acc) ↔
      (cb = cb' ∧ (p, d) ∈ dependencies ∧ (p, d) ∉ used) ∨ unusedMem p d cb acc := by
  unfold collectUnused
  induction dependencies generalizing acc with
  | nil =>
    simp only [List.foldl_nil, List.not_mem_nil, false_and, and_false, false_or]
  | cons a t ih =>
    rw [List.foldl_cons]
    by_cases hmem : a ∈ used
    · rw [if_pos hmem, ih h]
      constructor
      · rintro (⟨rfl, hmt, hnu⟩ | hacc)
        · exact Or.inl ⟨rfl, List.mem_cons_of_mem a hmt, hnu⟩
        · exact Or.inr hacc
      · rintro (⟨rfl, hmt, hnu⟩ | hacc)
        · rcases List.mem_cons.mp hmt with heq | hmt
          · exact absurd (heq ▸ hmem) hnu
          · exact Or.inl ⟨rfl, hmt, hnu⟩
        · exact Or.inr hacc
    · rw [if_neg hmem, ih (unusedInv_unusedInsert h), unusedMem_unusedInsert h.1]
      constructor
      · rintro (⟨rfl, hmt, hnu⟩ | ⟨rfl, rfl, rfl⟩ | hacc)
        · exact Or.inl ⟨rfl, List.mem_cons_of_mem a hmt, hnu⟩
        · exact Or.inl ⟨rfl, by simp, by simpa using hmem⟩
        · exact Or.inr hacc
      · rintro (⟨rfl, hmt, hnu⟩ | hacc)
        · rcases List.mem_cons.mp hmt with heq | hmt
          · refine Or.inr (Or.inl ?_)
            rw [Prod.ext_iff] at heq
            exact ⟨heq.1, rfl, heq.2⟩
          · exact Or.inl ⟨rfl, hmt, hnu⟩
        · exact Or.inr (Or.inr hacc)

theorem unusedInv_computeUnused {sets : DependencySets} :
    UnusedInv (computeUnused sets) :=
  unusedInv_collectUnused (unusedInv_collectUnused unusedInv_nil)

theorem unusedMem_computeUnused_normal {p : PackageId} {d : InternedString}
    {sets : DependencySets} :
    unusedMem p d false (computeUnused sets) ↔
      (p, d) ∈ sets.normal_dev_dependencies ∧
        (p, d) ∉ sets.used_normal_dev_dependencies := by
  unfold computeUnused
  rw [unusedMem_collectUnused (unusedInv_collectUnused unusedInv_nil),
    unusedMem_collectUnused unusedInv_nil]
  constructor
  · rintro (⟨hcb, -⟩ | ⟨⟨-, h⟩ | habs⟩)
    · cases hcb
    · exact h
    · exact absurd habs unusedMem_nil
  · exact fun h => Or.inr (Or.inl ⟨rfl, h⟩)

theorem unusedMem_computeUnused_build {p : PackageId} {d : InternedString}
    {sets : DependencySets} :
    unusedMem p d true (computeUnused sets) ↔
      (p, d) ∈ sets.build_dependencies ∧ (p, d) ∉ sets.used_build_dependencies := by
  unfold computeUnused
  rw [unusedMem_collectUnused (unusedInv_collectUnused unusedInv_nil),
    unusedMem_collectUnused unusedInv_nil]
  constructor
  · rintro (⟨-, h⟩ | ⟨⟨hcb, -⟩ | habs⟩)
    · exact h
    · cases hcb
    · exact absurd habs unusedMem_nil
  · exact fun h => Or.inl ⟨rfl, h⟩

/-! ## Helper lemmas: the argument parser -/

theorem parseArgs_pres {args : List String} {st st' : ArgsState}
    (hp : parseArgs args st = .ok st') :
    ("--crate-name" ∉ args → st'.crate_name = st.crate_name) ∧
    ("--crate-type" ∉ args → st'.crate_type = st.crate_type) ∧
    ("--out-dir" ∉ args → st'.out_dir = st.out_dir) := by
  revert hp
  induction args, st using parseArgs.induct with
  | case1 st =>
    intro hp
    rw [parseArgs, Except.ok.injEq] at hp
    subst hp
    exact ⟨fun _ => rfl, fun _ => rfl, fun _ => rfl⟩
  | case2 v st =>
    intro hp
    rw [parseArgs, Except.ok.injEq] at hp
    subst hp
    exact ⟨fun _ => rfl, fun _ => rfl, fun _ => rfl⟩
  | case3 a rest st e hsplit ih =>
    intro hp
    rw [parseArgs, if_pos rfl, hsplit] at hp
    have h := ih hp
    refine ⟨fun hm => ?_, fun hm => ?_, fun hm => ?_⟩
    · exact h.1 (fun hr => hm (List.mem_cons_of_mem _ (List.mem_cons_of_mem _ hr)))
    · exact h.2.1 (fun hr => hm (List.mem_cons_of_mem _ (List.mem_cons_of_mem _ hr)))
    · exact h.2.2 (fun hr => hm (List.mem_cons_of_mem _ (List.mem_cons_of_mem _ hr)))
  | case4 a rest st hsplit =>
    intro hp
    rw [parseArgs, if_pos rfl, hsplit] at hp
    cases hp
  | case5 a rest st h1 ih =>
    intro hp
    rw [parseArgs, if_neg h1, if_pos rfl] at hp
    have h := ih hp
    refine ⟨fun hm => absurd (List.mem_cons_self _ _) hm, fun hm => ?_, fun hm => ?_⟩
    · exact h.2.1 (fun hr => hm (List.mem_cons_of_mem _ (List.mem_cons_of_mem _ hr)))
    · exact h.2.2 (fun hr => hm (List.mem_cons_of_mem _ (List.mem_cons_of_mem _ hr)))
  | case6 a rest st h1 h2 ih =>
    intro hp
    rw [parseArgs, if_neg h1, if_neg h2, if_pos rfl] at hp
    have h := ih hp
    refine ⟨fun hm => ?_, fun hm => ?_, fun hm => ?_⟩
    · exact h.1 (fun hr => hm (List.mem_cons_of_mem _ (List.mem_cons_of_mem _ hr)))
    · exact absurd (List.mem_cons_self _ _) hm
    · exact h.2.2 (fun hr => hm (List.mem_cons_of_mem _ (List.mem_cons_of_mem _ hr)))
  | case7 a rest st h1 h2 h3 ih =>
    intro hp
    rw [parseArgs, if_neg h1, if_neg h2, if_neg h3, if_pos rfl] at hp
    have h := ih hp
    have hst : ∀ b : ArgsState,
        (if a = "allow" then { b with cap_lints_allow := true } else b).crate_name
            = b.crate_name ∧
          (if a = "allow" then { b with cap_lints_allow := true } else b).crate_type
            = b.crate_type ∧
          (if a = "allow" then { b with cap_lints_allow := true } else b).out_dir
            = b.out_dir := by
      intro b
      by_cases hb : a = "allow" <;> simp [hb]
    refine ⟨fun hm => ?_, fun hm => ?_, fun hm => ?_⟩
    · rw [h.1 (fun hr => hm (List.mem_cons_of_mem _ (List.mem_cons_of_mem _ hr)))]
      exact (hst st).1
    · rw [h.2.1 (fun hr => hm (List.mem_cons_of_mem _ (List.mem_cons_of_mem _ hr)))]
      exact (hst st).2.1
    · rw [h.2.2 (fun hr => hm (List.mem_cons_of_mem _ (List.mem_cons_of_mem _ hr)))]
      exact (hst st).2.2
  | case8 a rest st h1 h2 h3 h4 ih =>
    intro hp
    rw [parseArgs, if_neg h1, if_neg h2, if_neg h3, if_neg h4, if_pos rfl] at hp
    have h := ih hp
    refine ⟨fun hm => ?_, fun hm => ?_, fun hm => absurd (List.mem_cons_self _ _) hm⟩
    · exact h.1 (fun hr => hm (List.mem_cons_of_mem _ (List.mem_cons_of_mem _ hr)))
    · exact h.2.1 (fun hr => hm (List.mem_cons_of_mem _ (List.mem_cons_of_mem _ hr)))
  | case9 a rest st h1 h2 h3 h4 h5 ih =>
    intro hp
    rw [parseArgs, if_neg h1, if_neg h2, if_neg h3, if_neg h4, if_neg h5, if_pos rfl] at hp
    have h := ih hp
    have hst :
        (match splitEq a with
          | some (n, p) =>
            if n = "extra-filename" then { st with extra_filename := some p } else st
          | none => st).crate_name = st.crate_name ∧
        (match splitEq a with
          | some (n, p) =>
            if n = "extra-filename" then { st with extra_filename := some p } else st
          | none => st).crate_type = st.crate_type ∧
        (match splitEq a with
          | some (n, p) =>
            if n = "extra-filename" then { st with extra_filename := some p } else st
          | none => st).out_dir = st.out_dir := by
      rcases hs : splitEq a with - | ⟨n, q⟩
      · exact ⟨rfl, rfl, rfl⟩
      · by_cases hn : n = "extra-filename" <;> simp [hn]
    refine ⟨fun hm => ?_, fun hm => ?_, fun hm => ?_⟩
    · rw [h.1 (fun hr => hm (List.mem_cons_of_mem _ (List.mem_cons_of_mem _ hr)))]
      exact hst.1
    · rw [h.2.1 (fun hr => hm (List.mem_cons_of_mem _ (List.mem_cons_of_mem _ hr)))]
      exact hst.2.1
    · rw [h.2.2 (fun hr => hm (List.mem_cons_of_mem _ (List.mem_cons_of_mem _ hr)))]
      exact hst.2.2
  | case10 v a rest st h1 h2 h3 h4 h5 h6 ih =>
    intro hp
    rw [parseArgs, if_neg h1, if_neg h2, if_neg h3, if_neg h4, if_neg h5, if_neg h6] at hp
    have h := ih hp
    refine ⟨fun hm => ?_, fun hm => ?_, fun hm => ?_⟩
    · exact h.1 (fun hr => hm (List.mem_cons_of_mem _ hr))
    · exact h.2.1 (fun hr => hm (List.mem_cons_of_mem _ hr))
    · exact h.2.2 (fun hr => hm (List.mem_cons_of_mem _ hr))

theorem cmd_info_error_of_missing {id : PackageId} {cb : Bool} {args : List String}
    (h : "--crate-name" ∉ args ∨ "--out-dir" ∉ args) :
    ∃ e, cmd_info id cb args = .error e := by
  unfold cmd_info
  cases hp : parseArgs args {} with
  | error e => exact ⟨e, rfl⟩
  | ok st =>
    rw [ok_bind]
    rcases h with h | h
    · have hcn : st.crate_name = none := (parseArgs_pres hp).1 h
      rw [hcn]
      exact ⟨"crate name needed", rfl⟩
    · have hod : st.out_dir = none := (parseArgs_pres hp).2.2 h
      cases hcn : st.crate_name with
      | none => exact ⟨"crate name needed", rfl⟩
      | some cn =>
        cases hef : st.extra_filename with
        | none => exact ⟨"extra-filename needed", rfl⟩
        | some ef =>
          rw [hod]
          exact ⟨"outdir needed", rfl⟩

theorem cmd_info_ok {id : PackageId} {cb : Bool} {args : List String} {st : ArgsState}
    {cn ef od : String} (hp : parseArgs args {} = .ok st)
    (hcn : st.crate_name = some cn) (hef : st.extra_filename = some ef)
    (hod : st.out_dir = some od) :
    cmd_info id cb args = .ok
      { pkg := id, custom_build := cb, crate_name := cn,
        crate_type := st.crate_type.getD "bin", extra_filename := ef,
        cap_lints_allow := st.cap_lints_allow, out_dir := od, externs := st.externs } := by
  unfold cmd_info
  rw [hp, ok_bind, hcn, okOr, ok_bind, hef, okOr, ok_bind, hod, okOr, ok_bind]

/-! ## Helper lemmas: the name-index maps -/

theorem mmLookup_cons {k k' : String} {s : List InternedString}
    {rest : List (String × List InternedString)} :
    mmLookup k ((k', s) :: rest) = if k = k' then s else mmLookup k rest := by
  unfold mmLookup
  rw [alookup_cons]
  by_cases h : k = k'
  · rw [if_pos h, if_pos h]
    rfl
  · rw [if_neg h, if_neg h]

theorem mem_mmLookup_mmInsert_self {k : String} {v : InternedString}
    {m : List (String × List InternedString)} :
    v ∈ mmLookup k (mmInsert k v m) := by
  induction m with
  | nil =>
    unfold mmInsert
    rw [mmLookup_cons, if_pos rfl]
    exact List.mem_singleton.mpr rfl
  | cons kv m ih =>
    obtain ⟨k', s⟩ := kv
    unfold mmInsert
    by_cases h : k = k'
    · rw [if_pos h, mmLookup_cons, if_pos h]
      by_cases hv : v ∈ s
      · rw [if_pos hv]
        exact hv
      · rw [if_neg hv]
        exact List.mem_cons_self _ _
    · rw [if_neg h, mmLookup_cons, if_neg h]
      exact ih

theorem mem_mmLookup_mmInsert_of_mem {x : InternedString} {k' k : String}
    {v : InternedString} {m : List (String × List InternedString)}
    (h : x ∈ mmLookup k' m) : x ∈ mmLookup k' (mmInsert k v m) := by
  induction m with
  | nil =>
    unfold mmLookup alookup at h
    simp at h
  | cons kv m ih =>
    obtain ⟨k0, s⟩ := kv
    rw [mmLookup_cons] at h
    unfold mmInsert
    by_cases hk : k = k0
    · rw [if_pos hk, mmLookup_cons]
      by_cases hk' : k' = k0
      · rw [if_pos hk'] at h
        rw [if_pos hk']
        by_cases hv : v ∈ s
        · rw [if_pos hv]
          exact h
        · rw [if_neg hv]
          exact List.mem_cons_of_mem _ h
      · rw [if_neg hk'] at h
        rw [if_neg hk']
        exact h
    · rw [if_neg hk, mmLookup_cons]
      by_cases hk' : k' = k0
      · rw [if_pos hk'] at h
        rw [if_pos hk']
        exact h
      · rw [if_neg hk'] at h
        rw [if_neg hk']
        exact ih h

theorem alookup_isSome_mapInsert {n k : String} {v : InternedString}
    {m : List (String × InternedString)} (h : (alookup n m).isSome = true) :
    (alookup n (mapInsert k v m)).isSome = true := by
  unfold mapInsert
  rw [alookup_cons]
  by_cases hn : n = k
  · rw [if_pos hn]
    rfl
  · rw [if_neg hn]
    exact h

theorem isEmpty_btreeInsert {k : InternedString} {v : String}
    {m : List (InternedString × String)} : (btreeInsert k v m).isEmpty = false := by
  cases m with
  | nil => rfl
  | cons kv rest =>
    obtain ⟨k', v'⟩ := kv
    unfold btreeInsert
    by_cases h1 : k < k'
    · rw [if_pos h1]
      rfl
    · by_cases h2 : k = k'
      · rw [if_neg h1, if_pos h2]
        rfl
      · rw [if_neg h1, if_neg h2]
        rfl

theorem mem_keys_btreeInsert_self {k : InternedString} {v : String}
    {m : List (InternedString × String)} : k ∈ (btreeInsert k v m).map Prod.fst := by
  induction m with
  | nil => exact List.mem_singleton.mpr rfl
  | cons kv rest ih =>
    obtain ⟨k', v'⟩ := kv
    unfold btreeInsert
    by_cases h1 : k < k'
    · rw [if_pos h1]
      exact List.mem_cons_self _ _
    · by_cases h2 : k = k'
      · rw [if_neg h1, if_pos h2]
        exact List.mem_cons_self _ _
      · rw [if_neg h1, if_neg h2, List.map_cons]
        exact List.mem_cons_of_mem _ ih

theorem mem_keys_btreeInsert_of_mem {x k : InternedString} {v : String}
    {m : List (InternedString × String)} (h : x ∈ m.map Prod.fst) :
    x ∈ (btreeInsert k v m).map Prod.fst := by
  induction m with
  | nil => simp at h
  | cons kv rest ih =>
    obtain ⟨k', v'⟩ := kv
    rw [List.map_cons, List.mem_cons] at h
    unfold btreeInsert
    by_cases h1 : k < k'
    · rw [if_pos h1, List.map_cons, List.map_cons, List.mem_cons, List.mem_cons]
      tauto
    · by_cases h2 : k = k'
      · rw [if_neg h1, if_pos h2, List.map_cons, List.mem_cons]
        rcases h with rfl | h
        · exact Or.inl h2.symm
        · exact Or.inr h
      · rw [if_neg h1, if_neg h2, List.map_cons, List.mem_cons]
        rcases h with rfl | h
        · exact Or.inl rfl
        · exact Or.inr (ih h)

/-- The preservation target for the amended self-registration claim: the
self entry stays visible in the normal/dev maps while edges are processed. -/
def SelfVisible (n : String) (name : InternedString) (this : DependencyNames) : Prop :=
  (alookup n this.normal_dev_by_extern_crate_name).isSome = true ∧
    name ∈ mmLookup n this.normal_dev_by_lib_true_snakecased_name

theorem selfVisible_addDep {n ecn lib : String} {name : InternedString}
    {dep : Dependency} {this : DependencyNames} (h : SelfVisible n name this) :
    SelfVisible n name (addDep ecn lib dep this) := by
  unfold addDep
  by_cases hb : dep.is_build = true
  · rw [if_pos hb]
    exact h
  · rw [if_neg hb]
    exact ⟨alookup_isSome_mapInsert h.1, mem_mmLookup_mmInsert_of_mem h.2⟩

theorem selfVisible_foldl_addDep {n ecn lib : String} {name : InternedString}
    {deps : List Dependency} {this : DependencyNames} (h : SelfVisible n name this) :
    SelfVisible n name (deps.foldl (fun acc dep => addDep ecn lib dep acc) this) := by
  induction deps generalizing this with
  | nil => exact h
  | cons d deps ih =>
    rw [List.foldl_cons]
    exact ih (selfVisible_addDep h)

theorem selfVisible_processEdgeGroup {n : String} {name : InternedString}
    {this this' : DependencyNames} {g : EdgeGroup}
    (hok : processEdgeGroup this g = .ok this') (h : SelfVisible n name this) :
    SelfVisible n name this' := by
  unfold processEdgeGroup at hok
  cases hlib : g.to_lib_name with
  | none =>
    rw [hlib] at hok
    cases hok
  | some libName =>
    rw [hlib] at hok
    rw [Except.ok.injEq] at hok
    subst hok
    exact selfVisible_foldl_addDep h

theorem selfVisible_foldlM {n : String} {name : InternedString}
    {gs : List EdgeGroup} {this this' : DependencyNames}
    (hok : gs.foldlM processEdgeGroup this = .ok this') (h : SelfVisible n name this) :
    SelfVisible n name this' := by
  induction gs generalizing this with
  | nil =>
    simp only [List.foldlM_nil, pure, Except.pure, Except.ok.injEq] at hok
    subst hok
    exact h
  | cons g gs ih =>
    rw [List.foldlM_cons] at hok
    cases hg : processEdgeGroup this g with
    | error e =>
      rw [hg] at hok
      cases hok
    | ok t =>
      rw [hg, ok_bind] at hok
      exact ih hok (selfVisible_processEdgeGroup hg h)

/-! ## Run-level error-propagation lemmas -/

theorem run_error_of_processCmdInfo_error {inp : RunInput} {ci : CmdInfo}
    {dns : List (PackageId × DependencyNamesResult)}
    (hci : ci ∈ inp.relevant_cmd_infos)
    (hb : buildDependencyNames inp.members = .ok dns)
    (herr : ∀ sets, ∃ e, processCmdInfo dns inp.fs sets ci = .error e) :
    ∃ e, OptUdeps.run inp = .error e := by
  unfold OptUdeps.run correlate
  rcases foldlM_congr_error hci herr {} with ⟨e, he⟩
  refine ⟨e, ?_⟩
  rw [hb]
  simp only [ok_bind]
  rw [he]
  rfl

theorem run_error_of_analysis_error {inp : RunInput} {ci : CmdInfo} {e : String}
    (hci : ci ∈ inp.relevant_cmd_infos)
    (he : ci.get_save_analysis inp.fs = .error e) :
    ∃ e', OptUdeps.run inp = .error e' := by
  cases hb : buildDependencyNames inp.members with
  | error e2 =>
    refine ⟨e2, ?_⟩
    unfold OptUdeps.run correlate
    rw [hb]
    rfl
  | ok dns =>
    refine run_error_of_processCmdInfo_error hci hb (fun sets => ⟨e, ?_⟩)
    unfold processCmdInfo
    rw [he]
    rfl

/-! ## The claims -/

/-- C1: for every package and every category (normal/dev and build), the
reported unused-dependency set is exactly the declared set minus the used
set, and the output structure is deterministically ordered: package keys
strictly sorted, and the dependency names within each package and category
strictly sorted (lib.rs 262–279). -/
theorem C1_unused_eq_declared_minus_used_and_sorted (sets : DependencySets) :
    (∀ p d, unusedMem p d false (computeUnused sets) ↔
        ((p, d) ∈ sets.normal_dev_dependencies ∧
          (p, d) ∉ sets.used_normal_dev_dependencies)) ∧
    (∀ p d, unusedMem p d true (computeUnused sets) ↔
        ((p, d) ∈ sets.build_dependencies ∧ (p, d) ∉ sets.used_build_dependencies)) ∧
    ((computeUnused sets).map Prod.fst).Pairwise (· < ·) ∧
    (∀ e ∈ computeUnused sets, e.2.1.Pairwise (· < ·) ∧ e.2.2.Pairwise (· < ·)) :=
  ⟨fun _ _ => unusedMem_computeUnused_normal,
    fun _ _ => unusedMem_computeUnused_build,
    unusedInv_computeUnused.1,
    fun e he => unusedInv_computeUnused.2 e he⟩

/-- Concrete sets for the C1 witness: package `p 0.1.0` declares `a` and `b`
in the normal/dev category and uses only `a`. -/
def c1Sets : DependencySets :=
  { used_normal_dev_dependencies := [("p 0.1.0", "a")]
  , used_build_dependencies := []
  , normal_dev_dependencies := [("p 0.1.0", "a"), ("p 0.1.0", "b")]
  , build_dependencies := [] }

theorem C1_witness :
    unusedMem "p 0.1.0" "b" false (computeUnused c1Sets) ∧
    ¬ unusedMem "p 0.1.0" "a" false (computeUnused c1Sets) := by
  have h := C1_unused_eq_declared_minus_used_and_sorted c1Sets
  refine ⟨(h.1 "p 0.1.0" "b").mpr (by decide), fun hmem => ?_⟩
  have := (h.1 "p 0.1.0" "a").mp hmem
  exact absurd this (by decide)

/-- C5: one run has exactly three user-visible completions (lib.rs 27–36,
280–311): unused dependencies found → exit code 1 with first line
`unused dependencies:`; none found → exit code 0 with
`All deps seem to have been used.`; a failed run → a third outcome distinct
from both (the `Err` arm panics via `unimplemented!()`). -/
theorem C5_completion_outcomes (inp : RunInput) :
    (∀ sets, correlate inp = .ok sets →
      (((computeUnused sets).all fun e => e.2.1.isEmpty && e.2.2.isEmpty) = true →
          OptUdeps.run inp = .ok (0, "All deps seem to have been used.") ∧
            run inp = .ok) ∧
      (((computeUnused sets).all fun e => e.2.1.isEmpty && e.2.2.isEmpty) = false →
          OptUdeps.run inp = .ok (1, "unused dependencies:") ∧
            run inp = .errCode 1)) ∧
    (∀ e, correlate inp = .error e →
        OptUdeps.run inp = .error e ∧ run inp = .panicked) ∧
    (CliOutcome.errCode 1 ≠ CliOutcome.ok ∧ CliOutcome.panicked ≠ CliOutcome.ok ∧
      CliOutcome.panicked ≠ CliOutcome.errCode 1) := by
  refine ⟨?_, ?_, by decide, by decide, by decide⟩
  · intro sets hok
    constructor
    · intro hcond
      have h1 : OptUdeps.run inp = .ok (0, "All deps seem to have been used.") := by
        unfold OptUdeps.run
        rw [hok, ok_bind, if_pos hcond]
      refine ⟨h1, ?_⟩
      unfold run
      rw [h1]
    · intro hcond
      have h1 : OptUdeps.run inp = .ok (1, "unused dependencies:") := by
        unfold OptUdeps.run
        rw [hok, ok_bind, if_neg (by rw [hcond]; exact Bool.false_ne_true)]
      refine ⟨h1, ?_⟩
      unfold run
      rw [h1]
  · intro e herr
    have h1 : OptUdeps.run inp = .error e := by
      unfold OptUdeps.run
      rw [herr]
      rfl
    refine ⟨h1, ?_⟩
    unfold run
    rw [h1]

/-- Trivial input for the C5 witness: no members, no records. -/
def c5Input : RunInput :=
  { members := [], relevant_cmd_infos := [], fs := fun _ => none }

theorem C5_witness :
    OptUdeps.run c5Input = .ok (0, "All deps seem to have been used.") ∧
      run c5Input = .ok :=
  ((C5_completion_outcomes c5Input).1 {} rfl).1 rfl

/-- C6: the artifact path is a deterministic function of the record's output
location, library name, unit kind and disambiguating suffix
(`out_dir/save-analysis/[lib]<crate_name><extra_filename>.json`,
lib.rs 418–430), and a missing or malformed artifact fails the whole run
(lib.rs 222–223, 431–448). -/
theorem C6_artifact_path_and_fatality (ci : CmdInfo) (fs : Fs) :
    ci.get_save_analysis_path =
      pathJoin (pathJoin ci.out_dir "save-analysis")
        ((if ends_with ci.crate_type "lib" || ci.crate_type = "proc-macro" then "lib" else "")
          ++ ci.crate_name ++ ci.extra_filename ++ ".json") ∧
    ((∃ e, ci.get_save_analysis fs = .error e) ↔
      (fs ci.get_save_analysis_path = none ∨ fs ci.get_save_analysis_path = some none)) ∧
    (∀ a, fs ci.get_save_analysis_path = some (some a) →
      ci.get_save_analysis fs = .ok a) ∧
    (∀ inp : RunInput, ci ∈ inp.relevant_cmd_infos →
      (inp.fs ci.get_save_analysis_path = none ∨
        inp.fs ci.get_save_analysis_path = some none) →
      ∃ e, OptUdeps.run inp = .error e) := by
  refine ⟨rfl, ?_, ?_, ?_⟩
  · unfold CmdInfo.get_save_analysis
    cases hfs : fs ci.get_save_analysis_path with
    | none => exact ⟨fun _ => Or.inl rfl, fun _ => ⟨_, rfl⟩⟩
    | some o =>
      cases o with
      | none => exact ⟨fun _ => Or.inr rfl, fun _ => ⟨_, rfl⟩⟩
      | some a =>
        constructor
        · rintro ⟨e, he⟩
          cases he
        · rintro (h | h) <;> cases h
  · intro a ha
    unfold CmdInfo.get_save_analysis
    rw [ha]
  · intro inp hci hbad
    rcases hbad with h | h
    · exact run_error_of_analysis_error hci
        (by unfold CmdInfo.get_save_analysis; rw [h])
    · exact run_error_of_analysis_error hci
        (by unfold CmdInfo.get_save_analysis; rw [h])

/-- Concrete record for the C6 witness: a defaulted-`bin` unit. -/
def c6Ci : CmdInfo :=
  { pkg := "p 0.1.0", custom_build := false, crate_name := "foo", crate_type := "bin"
  , extra_filename := "-ab", cap_lints_allow := false, out_dir := "/o", externs := [] }

/-- An empty filesystem: every artifact is missing. -/
def c6Fs : Fs := fun _ => none

theorem C6_witness :
    c6Ci.get_save_analysis_path = "/o/save-analysis/foo-ab.json" ∧
      ∃ e, c6Ci.get_save_analysis c6Fs = .error e :=
  ⟨by decide, ((C6_artifact_path_and_fatality c6Ci c6Fs).2.1).mpr (Or.inl rfl)⟩

theorem cmd_info_ok_inv {id : PackageId} {cb : Bool} {args : List String} {ci : CmdInfo}
    (h : cmd_info id cb args = .ok ci) :
    ∃ st cn ef od, parseArgs args {} = .ok st ∧ st.crate_name = some cn ∧
      st.extra_filename = some ef ∧ st.out_dir = some od ∧
      ci = CmdInfo.mk id cb cn (st.crate_type.getD "bin") ef st.cap_lints_allow od
        st.externs := by
  unfold cmd_info at h
  cases hp : parseArgs args {} with
  | error e =>
    rw [hp] at h
    cases h
  | ok st =>
    rw [hp, ok_bind] at h
    cases hcn : st.crate_name with
    | none =>
      rw [hcn] at h
      cases h
    | some cn =>
      rw [hcn] at h
      simp only [okOr, ok_bind] at h
      cases hef : st.extra_filename with
      | none =>
        rw [hef] at h
        cases h
      | some ef =>
        rw [hef] at h
        simp only [okOr, ok_bind] at h
        cases hod : st.out_dir with
        | none =>
          rw [hod] at h
          cases h
        | some od =>
          rw [hod] at h
          simp only [okOr, ok_bind, Except.ok.injEq] at h
          exact ⟨st, cn, ef, od, rfl, hcn, hef, hod, h.symm⟩

/-- C7: a non-build-script invocation missing `--crate-name` or `--out-dir`
fatally aborts the run (`cmd_info` errors, lib.rs 511, 514, and `Exec::exec`
panics on that error, lib.rs 361–363); when the required fields are present
a well-formed record is produced. -/
theorem C7_required_fields (id : PackageId) (cb is_path : Bool) (args : List String) :
    (("--crate-name" ∉ args ∨ "--out-dir" ∉ args) →
      (∃ e, cmd_info id cb args = .error e) ∧
        ∃ e, Exec.exec id cb is_path args = .error e) ∧
    (∀ st cn ef od, parseArgs args {} = .ok st → st.crate_name = some cn →
      st.extra_filename = some ef → st.out_dir = some od →
      cmd_info id cb args = .ok
        { pkg := id, custom_build := cb, crate_name := cn,
          crate_type := st.crate_type.getD "bin", extra_filename := ef,
          cap_lints_allow := st.cap_lints_allow, out_dir := od,
          externs := st.externs }) := by
  constructor
  · intro h
    rcases cmd_info_error_of_missing h with ⟨e, he⟩
    refine ⟨⟨e, he⟩, e, ?_⟩
    unfold Exec.exec
    rw [he]
    rfl
  · intro st cn ef od hp hcn hef hod
    exact cmd_info_ok hp hcn hef hod

/-- Arguments for the C7/C9/C10 witnesses: a well-formed invocation. -/
def exArgs : List String :=
  ["--crate-name", "foo", "--crate-type", "rlib", "--out-dir", "/tmp/o",
   "-C", "extra-filename=-ab12", "--extern", "dep=/x/libdep.rlib"]

/-- The parser state `exArgs` produces. -/
def exArgsState : ArgsState :=
  { crate_name := some "foo", crate_type := some "rlib", extra_filename := some "-ab12"
  , cap_lints_allow := false, out_dir := some "/tmp/o"
  , externs := [("dep", "/x/libdep.rlib")] }

/-- The record `cmd_info` produces from `exArgs`. -/
def exCmdInfo : CmdInfo :=
  { pkg := "p 0.1.0", custom_build := false, crate_name := "foo", crate_type := "rlib"
  , extra_filename := "-ab12", cap_lints_allow := false, out_dir := "/tmp/o"
  , externs := [("dep", "/x/libdep.rlib")] }

theorem C7_witness :
    (∃ e, cmd_info "p 0.1.0" false ["--out-dir", "/o"] = .error e) ∧
      cmd_info "p 0.1.0" false exArgs = .ok exCmdInfo := by
  constructor
  · exact ((C7_required_fields "p 0.1.0" false false ["--out-dir", "/o"]).1
      (Or.inl (by decide))).1
  · exact (C7_required_fields "p 0.1.0" false false exArgs).2
      exArgsState "foo" "-ab12" "/tmp/o" (by decide) rfl rfl rfl

/-- C10: an invocation without `--crate-type` defaults the unit kind to
`"bin"` (lib.rs 512), and the artifact filename carries the `lib` prefix
exactly when the unit kind ends with `lib` or is `proc-macro`
(lib.rs 418–426) — so a defaulted `bin` unit gets no prefix. -/
theorem C10_crate_type_default_and_lib_prefix (id : PackageId) (cb : Bool)
    (args : List String) :
    ("--crate-type" ∉ args →
      ∀ ci, cmd_info id cb args = .ok ci → ci.crate_type = "bin") ∧
    (∀ ci : CmdInfo, (ends_with ci.crate_type "lib" || ci.crate_type = "proc-macro") = true →
      ci.get_save_analysis_path =
        pathJoin (pathJoin ci.out_dir "save-analysis")
          ("lib" ++ ci.crate_name ++ ci.extra_filename ++ ".json")) ∧
    (∀ ci : CmdInfo, (ends_with ci.crate_type "lib" || ci.crate_type = "proc-macro") = false →
      ci.get_save_analysis_path =
        pathJoin (pathJoin ci.out_dir "save-analysis")
          (ci.crate_name ++ ci.extra_filename ++ ".json")) ∧
    ((ends_with "bin" "lib" || ("bin" : String) = "proc-macro") = false) := by
  refine ⟨?_, ?_, ?_, by decide⟩
  · intro hct ci hok
    rcases cmd_info_ok_inv hok with ⟨st, cn, ef, od, hp, -, -, -, hci⟩
    have hcty : st.crate_type = none := by
      have := (parseArgs_pres hp).2.1 hct
      simpa using this
    rw [hci, hcty]
    rfl
  · intro ci hcond
    unfold CmdInfo.get_save_analysis_path
    rw [if_pos hcond]
  · intro ci hcond
    unfold CmdInfo.get_save_analysis_path
    rw [if_neg (by rw [hcond]; exact Bool.false_ne_true)]
    simp only [String.empty_append]

theorem C10_witness :
    (∀ ci, cmd_info "p 0.1.0" false ["--crate-name", "foo", "--out-dir", "/o",
        "-C", "extra-filename=-ab"] = .ok ci → ci.crate_type = "bin") ∧
    c6Ci.get_save_analysis_path =
      pathJoin (pathJoin "/o" "save-analysis") ("foo" ++ "-ab" ++ ".json") := by
  have h := C10_crate_type_default_and_lib_prefix "p 0.1.0" false
    ["--crate-name", "foo", "--out-dir", "/o", "-C", "extra-filename=-ab"]
  refine ⟨fun ci hok => h.1 (by decide) ci hok, ?_⟩
  exact h.2.2.1 c6Ci (by decide)

/-- C9: a unit is force-rebuilt exactly when its package comes from a local
path source (lib.rs 399–402), and exactly those invocations get the
minimal-detail save-analysis request: the `RUST_SAVE_ANALYSIS_CONFIG`
environment value and the appended `-Z save-analysis` flag (lib.rs 391–395);
non-local units get neither, and only local units are recorded
(lib.rs 371–373). -/
theorem C9_rebuild_and_save_analysis (id : PackageId) (cb is_path : Bool)
    (args : List String) (unit : CargoUnit) :
    (Exec.force_rebuild unit = true ↔ unit.source_id.is_path = true) ∧
    (∀ r, Exec.exec id cb is_path args = .ok r →
      r.recorded = is_path ∧
      r.rust_save_analysis_config = (if is_path then some save_analysis_config else none) ∧
      r.final_args = (if is_path then args ++ ["-Z", "save-analysis"] else args)) ∧
    (is_path = false → ∀ r, Exec.exec id cb is_path args = .ok r →
      r.recorded = false ∧ r.rust_save_analysis_config = none ∧ r.final_args = args) := by
  have hgen : ∀ r, Exec.exec id cb is_path args = .ok r →
      r.recorded = is_path ∧
      r.rust_save_analysis_config = (if is_path then some save_analysis_config else none) ∧
      r.final_args = (if is_path then args ++ ["-Z", "save-analysis"] else args) := by
    intro r hok
    unfold Exec.exec at hok
    cases hc : cmd_info id cb args with
    | error e =>
      rw [hc] at hok
      cases hok
    | ok ci =>
      rw [hc] at hok
      simp only [ok_bind, Except.ok.injEq] at hok
      subst hok
      exact ⟨rfl, rfl, rfl⟩
  refine ⟨Iff.rfl, hgen, ?_⟩
  intro hip r hok
  rcases hgen r hok with ⟨h1, h2, h3⟩
  subst hip
  exact ⟨h1, by simpa using h2, by simpa using h3⟩

/-- The effects `Exec::exec` produces from `exArgs` for a path-source unit. -/
def exExec : ExecEffects :=
  { recorded := true, warned := false
  , rust_save_analysis_config := some save_analysis_config
  , final_args := exArgs ++ ["-Z", "save-analysis"] }

theorem C9_witness :
    Exec.force_rebuild { source_id := { is_path := true } } = true ∧
    ∃ r, Exec.exec "p 0.1.0" false true exArgs = .ok r ∧
      r.recorded = true ∧ r.rust_save_analysis_config = some save_analysis_config ∧
      r.final_args = exArgs ++ ["-Z", "save-analysis"] := by
  have h := C9_rebuild_and_save_analysis "p 0.1.0" false true exArgs
    { source_id := { is_path := true } }
  have hok : Exec.exec "p 0.1.0" false true exArgs = .ok exExec := by decide
  rcases h.2.1 exExec hok with ⟨h1, h2, h3⟩
  exact ⟨h.1.mpr rfl, exExec, hok, h1, h2, h3⟩

theorem processCmdInfo_normal_eq {dns : List (PackageId × DependencyNamesResult)}
    {fs : Fs} {sets : DependencySets} {ci : CmdInfo} {a : CrateSaveAnalysis}
    {dnr : DependencyNamesResult} (ha : ci.get_save_analysis fs = .ok a)
    (hdnr : alookup ci.pkg dns = some dnr) (hcb : ci.custom_build = false) :
    processCmdInfo dns fs sets ci =
      (recordDeclared dnr.names.normal_dev_by_extern_crate_name ci.pkg ci.externs
          sets.normal_dev_dependencies).map
        (fun dependencies =>
          { sets with
            used_normal_dev_dependencies :=
              recordUsage dnr.names.normal_dev_by_lib_true_snakecased_name ci.pkg a
                sets.used_normal_dev_dependencies
            normal_dev_dependencies := dependencies }) := by
  unfold processCmdInfo
  rw [ha]
  simp only [ok_bind]
  rw [hdnr, hcb]
  simp only [Bool.false_eq_true, if_false]
  cases hr : recordDeclared dnr.names.normal_dev_by_extern_crate_name ci.pkg ci.externs
      sets.normal_dev_dependencies with
  | error err => rfl
  | ok deps => rfl

/-- C8: for an Invocation Record whose package has a Name Index, every
declared `(link-name, path)` pair that is found in `by_extern_crate_name`
contributes its mapped manifest name to the declared set and the record is
processed successfully; a link-name that is absent is not skipped — the
processing of that record aborts (`panic!("could not find ...")`,
lib.rs 253–258) and with it the whole run. -/
theorem C8_declared_links_lookup (by_ecn : List (String × InternedString))
    (pkg : PackageId) (externs : List (String × String))
    (deps₀ : List (PackageId × InternedString)) :
    ((∀ e ∈ externs, (alookup e.1 by_ecn).isSome = true) →
      ∃ deps, recordDeclared by_ecn pkg externs deps₀ = .ok deps ∧
        (∀ x ∈ deps₀, x ∈ deps) ∧
        (∀ e ∈ externs, ∀ v, alookup e.1 by_ecn = some v → (pkg, v) ∈ deps)) ∧
    (∀ c ∈ externs, alookup c.1 by_ecn = none →
      ∃ err, recordDeclared by_ecn pkg externs deps₀ = .error err) ∧
    (∀ (inp : RunInput) (ci : CmdInfo) (dns : List (PackageId × DependencyNamesResult))
        (dnr : DependencyNamesResult) (c : String × String),
      ci ∈ inp.relevant_cmd_infos →
      buildDependencyNames inp.members = .ok dns →
      alookup ci.pkg dns = some dnr →
      ci.custom_build = false →
      c ∈ ci.externs →
      alookup c.1 dnr.names.normal_dev_by_extern_crate_name = none →
      ∃ e, OptUdeps.run inp = .error e) := by
  refine ⟨fun h => recordDeclared_ok h, fun c hc hl => recordDeclared_error hc hl, ?_⟩
  intro inp ci dns dnr c hci hb hdnr hcb hcx hmiss
  refine run_error_of_processCmdInfo_error hci hb (fun sets => ?_)
  cases ha : ci.get_save_analysis inp.fs with
  | error e =>
    refine ⟨e, ?_⟩
    unfold processCmdInfo
    rw [ha]
    rfl
  | ok a =>
    rw [processCmdInfo_normal_eq ha hdnr hcb]
    rcases @recordDeclared_error dnr.names.normal_dev_by_extern_crate_name ci.pkg ci.externs
      sets.normal_dev_dependencies c hcx hmiss with ⟨err, herr⟩
    refine ⟨err, ?_⟩
    rw [herr]
    rfl

theorem C8_witness :
    (∃ deps, recordDeclared [("dep", "dep-manifest")] "p 0.1.0" [("dep", "/x")] [] = .ok deps ∧
      ("p 0.1.0", "dep-manifest") ∈ deps) ∧
    (∃ err, recordDeclared [] "p 0.1.0" [("dep", "/x")] [] = .error err) := by
  constructor
  · rcases (C8_declared_links_lookup [("dep", "dep-manifest")] "p 0.1.0" [("dep", "/x")] []).1
      (by decide) with ⟨deps, hok, -, hhit⟩
    exact ⟨deps, hok, hhit ("dep", "/x") (by decide) "dep-manifest" (by decide)⟩
  · exact (C8_declared_links_lookup [] "p 0.1.0" [("dep", "/x")] []).2.1
      ("dep", "/x") (by decide) rfl

/-- C2: a dependency declared under manifest name `d.name_in_toml` whose
link-name (`extern_crate_name`) was renamed arbitrarily is still indexed and
marked used, because the used-set lookup keys on the target library's
canonical snakecased name (lib.rs 575–576, 594–597, 246–252), not on the
link-name: the conclusion holds for every value of `g.extern_crate_name`. -/
theorem C2_rename_matched_by_canonical_identity (p : FromPackage) (g : EdgeGroup)
    (d : Dependency) (ln L : String)
    (hself : p.self_lib_extern_crate_name = none)
    (hedges : p.resolve_deps = [g])
    (hlib : g.to_lib_name = some ln)
    (hL : snakecase ln = L)
    (hdeps : g.deps = [d])
    (hb : d.is_build = false) :
    ∃ res, DependencyNames.new p = .ok res ∧
      alookup g.extern_crate_name res.names.normal_dev_by_extern_crate_name =
        some d.name_in_toml ∧
      d.name_in_toml ∈ mmLookup L res.names.normal_dev_by_lib_true_snakecased_name ∧
      (∀ (pkg : PackageId) (a : CrateSaveAnalysis)
          (used : List (PackageId × InternedString)) (extCrate : ExternalCrateData),
        extCrate ∈ a.prelude.external_crates → extCrate.id.name = L →
        (pkg, d.name_in_toml) ∈
          recordUsage res.names.normal_dev_by_lib_true_snakecased_name pkg a used) := by
  subst hL
  obtain ⟨pid, pname, pself, pdeps⟩ := p
  obtain ⟨gto, glib, gecn, gdeps⟩ := g
  obtain ⟨dname, dbuild⟩ := d
  dsimp only at hself hedges hlib hdeps hb ⊢
  subst hself hedges hlib hdeps hb
  have hnew : DependencyNames.new
      ⟨pid, pname, none, [⟨gto, some ln, gecn, [⟨dname, false⟩]⟩]⟩ = .ok
      { names :=
          { normal_dev_by_extern_crate_name := [(gecn, dname)]
          , normal_dev_by_lib_true_snakecased_name := [(snakecase ln, [dname])]
          , build_by_extern_crate_name := []
          , build_by_lib_true_snakecased_name := [] }
      , ambiguous_normal_dev := [], ambiguous_build := [], warned := false } := rfl
  refine ⟨_, hnew, ?_, ?_, ?_⟩
  · rw [alookup_cons, if_pos rfl]
  · rw [mmLookup_cons, if_pos rfl]
    exact List.mem_singleton.mpr rfl
  · intro pkg a used extCrate hmem hname
    refine recordUsage_hit hmem ?_ (List.mem_singleton.mpr rfl)
    rw [hname, alookup_cons, if_pos rfl]

/-- The renamed dependency of the C2 witness. -/
def c2Dep : Dependency := { name_in_toml := "dep-a", is_build := false }

/-- The edge of the C2 witness: canonical library name `the-lib`, link-name
renamed to `renamed_link`. -/
def c2Edge : EdgeGroup :=
  { to_pkg := "a 1.0.0", to_lib_name := some "the-lib"
  , extern_crate_name := "renamed_link", deps := [c2Dep] }

/-- The consumer package of the C2 witness. -/
def c2Pkg : FromPackage :=
  { package_id := "p 0.1.0", name := "p", self_lib_extern_crate_name := none
  , resolve_deps := [c2Edge] }

/-- An analysis naming the canonical identity `the_lib`. -/
def c2Analysis : CrateSaveAnalysis := ⟨⟨[⟨⟨"the_lib"⟩⟩]⟩⟩

theorem C2_witness :
    ∃ res, DependencyNames.new c2Pkg = .ok res ∧
      ("p 0.1.0", "dep-a") ∈
        recordUsage res.names.normal_dev_by_lib_true_snakecased_name "p 0.1.0"
          c2Analysis [] := by
  rcases C2_rename_matched_by_canonical_identity c2Pkg c2Edge c2Dep "the-lib" "the_lib"
      rfl rfl rfl (by decide) rfl rfl with ⟨res, hok, -, -, husage⟩
  exact ⟨res, hok,
    husage "p 0.1.0" c2Analysis [] ⟨⟨"the_lib"⟩⟩ (List.mem_singleton.mpr rfl) rfl⟩

/-- C3: two manifest dependencies of one package resolving to libraries with
the same canonical identity are both indexed under that identity
(lib.rs 593–598); the indexer still succeeds but emits a warning listing the
ambiguous names (lib.rs 601–633); when the identity appears in a unit's
analysis, every colliding manifest name is marked used (lib.rs 246–252), so
neither is reported unused (lib.rs 262–279). -/
theorem C3_ambiguous_collision_conservative (p : FromPackage) (g1 g2 : EdgeGroup)
    (d1 d2 : Dependency) (ln1 ln2 L : String)
    (hself : p.self_lib_extern_crate_name = none)
    (hedges : p.resolve_deps = [g1, g2])
    (hlib1 : g1.to_lib_name = some ln1) (hlib2 : g2.to_lib_name = some ln2)
    (hL1 : snakecase ln1 = L) (hL2 : snakecase ln2 = L)
    (hdeps1 : g1.deps = [d1]) (hdeps2 : g2.deps = [d2])
    (hb1 : d1.is_build = false) (hb2 : d2.is_build = false)
    (hne : d1.name_in_toml ≠ d2.name_in_toml) :
    ∃ res, DependencyNames.new p = .ok res ∧
      res.warned = true ∧
      d1.name_in_toml ∈ res.ambiguous_normal_dev.map Prod.fst ∧
      d2.name_in_toml ∈ res.ambiguous_normal_dev.map Prod.fst ∧
      d1.name_in_toml ∈ mmLookup L res.names.normal_dev_by_lib_true_snakecased_name ∧
      d2.name_in_toml ∈ mmLookup L res.names.normal_dev_by_lib_true_snakecased_name ∧
      (∀ (pkg : PackageId) (a : CrateSaveAnalysis)
          (used : List (PackageId × InternedString)) (extCrate : ExternalCrateData),
        extCrate ∈ a.prelude.external_crates → extCrate.id.name = L →
          (pkg, d1.name_in_toml) ∈
            recordUsage res.names.normal_dev_by_lib_true_snakecased_name pkg a used ∧
          (pkg, d2.name_in_toml) ∈
            recordUsage res.names.normal_dev_by_lib_true_snakecased_name pkg a used) ∧
      (∀ (sets : DependencySets) (pkg : PackageId),
        (pkg, d1.name_in_toml) ∈ sets.used_normal_dev_dependencies →
          ¬ unusedMem pkg d1.name_in_toml false (computeUnused sets)) ∧
      (∀ (sets : DependencySets) (pkg : PackageId),
        (pkg, d2.name_in_toml) ∈ sets.used_normal_dev_dependencies →
          ¬ unusedMem pkg d2.name_in_toml false (computeUnused sets)) := by
  subst hL1
  obtain ⟨pid, pname, pself, pdeps⟩ := p
  obtain ⟨gto1, glib1, gecn1, gdeps1⟩ := g1
  obtain ⟨gto2, glib2, gecn2, gdeps2⟩ := g2
  obtain ⟨d1n, d1b⟩ := d1
  obtain ⟨d2n, d2b⟩ := d2
  dsimp only at hself hedges hlib1 hlib2 hL2 hdeps1 hdeps2 hb1 hb2 hne ⊢
  subst hself hedges hlib1 hlib2 hdeps1 hdeps2 hb1 hb2
  have hnotmem : d2n ∉ [d1n] := fun h => hne (List.mem_singleton.mp h).symm
  have hmm2 : mmInsert (snakecase ln2) d2n [(snakecase ln1, [d1n])]
      = [(snakecase ln1, [d2n, d1n])] := by
    rw [hL2]
    unfold mmInsert
    rw [if_pos rfl, if_neg hnotmem]
  have hm2 :
      ({ normal_dev_by_extern_crate_name := [(gecn2, d2n), (gecn1, d1n)]
       , normal_dev_by_lib_true_snakecased_name :=
           mmInsert (snakecase ln2) d2n [(snakecase ln1, [d1n])]
       , build_by_extern_crate_name := []
       , build_by_lib_true_snakecased_name := [] } : DependencyNames)
      = { normal_dev_by_extern_crate_name := [(gecn2, d2n), (gecn1, d1n)]
        , normal_dev_by_lib_true_snakecased_name := [(snakecase ln1, [d2n, d1n])]
        , build_by_extern_crate_name := []
        , build_by_lib_true_snakecased_name := [] } := by
    rw [hmm2]
  have h2 : processEdgeGroup
      { normal_dev_by_extern_crate_name := [(gecn1, d1n)]
      , normal_dev_by_lib_true_snakecased_name := [(snakecase ln1, [d1n])]
      , build_by_extern_crate_name := []
      , build_by_lib_true_snakecased_name := [] }
      ⟨gto2, some ln2, gecn2, [⟨d2n, false⟩]⟩
      = .ok { normal_dev_by_extern_crate_name := [(gecn2, d2n), (gecn1, d1n)]
            , normal_dev_by_lib_true_snakecased_name := [(snakecase ln1, [d2n, d1n])]
            , build_by_extern_crate_name := []
            , build_by_lib_true_snakecased_name := [] } := by
    rw [← hm2]
    rfl
  have hfold : List.foldlM processEdgeGroup ({} : DependencyNames)
      [⟨gto1, some ln1, gecn1, [⟨d1n, false⟩]⟩, ⟨gto2, some ln2, gecn2, [⟨d2n, false⟩]⟩]
      = .ok { normal_dev_by_extern_crate_name := [(gecn2, d2n), (gecn1, d1n)]
            , normal_dev_by_lib_true_snakecased_name := [(snakecase ln1, [d2n, d1n])]
            , build_by_extern_crate_name := []
            , build_by_lib_true_snakecased_name := [] } := by
    rw [List.foldlM_cons]
    rw [show processEdgeGroup ({} : DependencyNames)
        ⟨gto1, some ln1, gecn1, [⟨d1n, false⟩]⟩
        = .ok { normal_dev_by_extern_crate_name := [(gecn1, d1n)]
              , normal_dev_by_lib_true_snakecased_name := [(snakecase ln1, [d1n])]
              , build_by_extern_crate_name := []
              , build_by_lib_true_snakecased_name := [] } from rfl]
    rw [ok_bind, List.foldlM_cons, h2, ok_bind, List.foldlM_nil]
    rfl
  have hamb : ambiguous_names [(snakecase ln1, [d2n, d1n])]
      = btreeInsert d1n (snakecase ln1) [(d2n, snakecase ln1)] := rfl
  have hnew : DependencyNames.new
      ⟨pid, pname, none,
        [⟨gto1, some ln1, gecn1, [⟨d1n, false⟩]⟩, ⟨gto2, some ln2, gecn2, [⟨d2n, false⟩]⟩]⟩
      = .ok
      { names :=
          { normal_dev_by_extern_crate_name := [(gecn2, d2n), (gecn1, d1n)]
          , normal_dev_by_lib_true_snakecased_name := [(snakecase ln1, [d2n, d1n])]
          , build_by_extern_crate_name := []
          , build_by_lib_true_snakecased_name := [] }
      , ambiguous_normal_dev := btreeInsert d1n (snakecase ln1) [(d2n, snakecase ln1)]
      , ambiguous_build := []
      , warned :=
          !((btreeInsert d1n (snakecase ln1) [(d2n, snakecase ln1)]).isEmpty && true) } := by
    unfold DependencyNames.new selfInsert
    dsimp only
    rw [hfold]
    simp only [ok_bind]
    rw [hamb]
    rfl
  refine ⟨_, hnew, ?_, ?_, ?_, ?_, ?_, ?_, ?_, ?_⟩
  · show (!((btreeInsert d1n (snakecase ln1) [(d2n, snakecase ln1)]).isEmpty && true)) = true
    rw [isEmpty_btreeInsert]
    rfl
  · exact mem_keys_btreeInsert_self
  · exact mem_keys_btreeInsert_of_mem (List.mem_singleton.mpr rfl)
  · show d1n ∈ mmLookup (snakecase ln1) [(snakecase ln1, [d2n, d1n])]
    rw [mmLookup_cons, if_pos rfl]
    exact List.mem_cons_of_mem _ (List.mem_singleton.mpr rfl)
  · show d2n ∈ mmLookup (snakecase ln1) [(snakecase ln1, [d2n, d1n])]
    rw [mmLookup_cons, if_pos rfl]
    exact List.mem_cons_self _ _
  · intro pkg a used extCrate hmem hname
    have hlook : alookup extCrate.id.name [(snakecase ln1, [d2n, d1n])] = some [d2n, d1n] := by
      rw [hname, alookup_cons, if_pos rfl]
    exact ⟨recordUsage_hit hmem hlook
        (List.mem_cons_of_mem _ (List.mem_singleton.mpr rfl)),
      recordUsage_hit hmem hlook (List.mem_cons_self _ _)⟩
  · intro sets pkg hused h
    exact (unusedMem_computeUnused_normal.mp h).2 hused
  · intro sets pkg hused h
    exact (unusedMem_computeUnused_normal.mp h).2 hused

/-- First colliding dependency of the C3 witness. -/
def c3Dep1 : Dependency := { name_in_toml := "dep-one", is_build := false }

/-- Second colliding dependency of the C3 witness. -/
def c3Dep2 : Dependency := { name_in_toml := "dep-two", is_build := false }

/-- First edge of the C3 witness: library `coll-lib`, canonical `coll_lib`. -/
def c3Edge1 : EdgeGroup :=
  { to_pkg := "a 1.0.0", to_lib_name := some "coll-lib"
  , extern_crate_name := "coll_lib", deps := [c3Dep1] }

/-- Second edge of the C3 witness: a different package whose library is also
canonically `coll_lib`. -/
def c3Edge2 : EdgeGroup :=
  { to_pkg := "b 2.0.0", to_lib_name := some "coll_lib"
  , extern_crate_name := "coll_lib2", deps := [c3Dep2] }

/-- The consumer package of the C3 witness. -/
def c3Pkg : FromPackage :=
  { package_id := "p 0.1.0", name := "p", self_lib_extern_crate_name := none
  , resolve_deps := [c3Edge1, c3Edge2] }

/-- An analysis naming the colliding identity. -/
def c3Analysis : CrateSaveAnalysis := ⟨⟨[⟨⟨"coll_lib"⟩⟩]⟩⟩

theorem C3_witness :
    ∃ res, DependencyNames.new c3Pkg = .ok res ∧ res.warned = true ∧
      ("p 0.1.0", "dep-one") ∈
        recordUsage res.names.normal_dev_by_lib_true_snakecased_name "p 0.1.0"
          c3Analysis [] ∧
      ("p 0.1.0", "dep-two") ∈
        recordUsage res.names.normal_dev_by_lib_true_snakecased_name "p 0.1.0"
          c3Analysis [] := by
  rcases C3_ambiguous_collision_conservative c3Pkg c3Edge1 c3Edge2 c3Dep1 c3Dep2
      "coll-lib" "coll_lib" "coll_lib" rfl rfl rfl rfl (by decide) (by decide)
      rfl rfl rfl rfl (by decide)
    with ⟨res, hok, hw, -, -, -, -, husage, -, -⟩
  rcases husage "p 0.1.0" c3Analysis [] ⟨⟨"coll_lib"⟩⟩ (List.mem_singleton.mpr rfl) rfl
    with ⟨h1, h2⟩
  exact ⟨res, hok, hw, h1, h2⟩

/-- The package of the C4 counterexample: a library target self-registered
under extern name `self_pkg`, no dependencies. -/
def selfPackage : FromPackage :=
  { package_id := "self-pkg 0.1.0", name := "self-pkg"
  , self_lib_extern_crate_name := some "self_pkg", resolve_deps := [] }

/-- An analysis that references the package's own library. -/
def selfAnalysis : CrateSaveAnalysis := ⟨⟨[⟨⟨"self_pkg"⟩⟩]⟩⟩

/-- The index `DependencyNames::new` builds for `selfPackage`. -/
def selfRes : DependencyNamesResult :=
  { names :=
      { normal_dev_by_extern_crate_name := [("self_pkg", "self-pkg")]
      , normal_dev_by_lib_true_snakecased_name := [("self_pkg", ["self-pkg"])]
      , build_by_extern_crate_name := []
      , build_by_lib_true_snakecased_name := [] }
  , ambiguous_normal_dev := [], ambiguous_build := [], warned := false }

/-- C4 counterexample: the claim says the indexer never inserts a mapping for
the package's own library into the dependency lookup maps and keeps a
separate self-identity entry, so that a unit using its own library is never
counted as a usage or declaration.  On the code this is false: lib.rs 555–562
inserts the self library into the *same* `normal_dev_by_extern_crate_name`
and `normal_dev_by_lib_true_snakecased_name` maps that the correlator uses at
lib.rs 246–258, there is no separate entry, and a unit whose analysis names
its own library gets `(pkg, own-name)` inserted into the used set (and, when
it links its own library, into the declared set). -/
theorem C4_counterexample :
    DependencyNames.new selfPackage = .ok selfRes ∧
    alookup "self_pkg" selfRes.names.normal_dev_by_extern_crate_name = some "self-pkg" ∧
    "self-pkg" ∈ mmLookup "self_pkg" selfRes.names.normal_dev_by_lib_true_snakecased_name ∧
    ("self-pkg 0.1.0", "self-pkg") ∈
      recordUsage selfRes.names.normal_dev_by_lib_true_snakecased_name "self-pkg 0.1.0"
        selfAnalysis [] ∧
    recordDeclared selfRes.names.normal_dev_by_extern_crate_name "self-pkg 0.1.0"
        [("self_pkg", "/w/libself_pkg.rlib")] [] =
      .ok [("self-pkg 0.1.0", "self-pkg")] := by
  refine ⟨by decide, by decide, by decide, by decide, by decide⟩

/-- C4 (amended): for every package with a library target, the indexer
inserts the package's own library into the normal/dev dependency maps
themselves — keyed by the self extern crate name and mapped to the package's
own name — and this entry survives the processing of all resolved edges; the
source keeps no separate self-identity entry, so a unit using its own
package's library resolves through the ordinary dependency maps and is
counted as a usage/declaration under the package's own name (which, being
both declared and used, is never reported). -/
theorem C4_amended_self_in_dependency_maps (p : FromPackage) (n : String)
    (res : DependencyNamesResult)
    (hself : p.self_lib_extern_crate_name = some n)
    (hok : DependencyNames.new p = .ok res) :
    (alookup n res.names.normal_dev_by_extern_crate_name).isSome = true ∧
    p.name ∈ mmLookup n res.names.normal_dev_by_lib_true_snakecased_name := by
  unfold DependencyNames.new at hok
  dsimp only at hok
  cases hf : List.foldlM processEdgeGroup (selfInsert p) p.resolve_deps with
  | error e =>
    rw [hf] at hok
    cases hok
  | ok t =>
    rw [hf] at hok
    simp only [ok_bind, Except.ok.injEq] at hok
    subst hok
    refine selfVisible_foldlM hf ?_
    unfold selfInsert
    rw [hself]
    refine ⟨?_, mem_mmLookup_mmInsert_self⟩
    unfold mapInsert
    rw [alookup_cons, if_pos rfl]
    rfl

theorem C4_amended_witness :
    (alookup "self_pkg" selfRes.names.normal_dev_by_extern_crate_name).isSome = true ∧
    "self-pkg" ∈ mmLookup "self_pkg" selfRes.names.normal_dev_by_lib_true_snakecased_name :=
  C4_amended_self_in_dependency_maps selfPackage "self_pkg" selfRes rfl (by decide)

end Udeps
